import Mathlib

/-!
Verification development for jkmsigen.py, a generator of simple .msi
installer descriptions.  The Python source is embedded shallowly below:
pure helper functions become Lean functions, the recursive directory walk
(`walkdir`) becomes a structurally recursive function over an explicit
source-tree datatype, and the script's top-level document assembly becomes
the function `run`.  Randomness (`uuid4`) is modelled by passing the random
bytes as an explicit argument; the diagnostic stream (`logging.warning` /
`logging.error`) is modelled as an explicit list of levelled messages.
-/

/-! ## Bytes, 32-bit words, SHA-1 (as used by Python's `uuid.uuid5`) -/

/-- Big-endian interpretation of a byte list as a natural number,
Python `int.from_bytes(bs, 'big')`. -/
def bytesToNatBE (bs : List Nat) : Nat :=
  bs.foldl (fun a b => a * 256 + b) 0

/-- Big-endian fixed-width byte serialisation of a natural number,
Python `n.to_bytes(width, 'big')` (high bits beyond the width are dropped;
all values serialised in this development fit their width). -/
def natToBytesBE : Nat → Nat → List Nat
  | 0, _ => []
  | w + 1, n => natToBytesBE w (n / 256) ++ [n % 256]

/-- UTF-8 encoding of a single character (RFC 3629), as bytes 0..255. -/
def utf8Char (c : Char) : List Nat :=
  let n := c.toNat
  if n < 0x80 then [n]
  else if n < 0x800 then
    [0xC0 ||| (n >>> 6), 0x80 ||| (n &&& 0x3F)]
  else if n < 0x10000 then
    [0xE0 ||| (n >>> 12), 0x80 ||| ((n >>> 6) &&& 0x3F), 0x80 ||| (n &&& 0x3F)]
  else
    [0xF0 ||| (n >>> 18), 0x80 ||| ((n >>> 12) &&& 0x3F),
     0x80 ||| ((n >>> 6) &&& 0x3F), 0x80 ||| (n &&& 0x3F)]

/-- UTF-8 encoding of a string, Python `s.encode('utf-8')`. -/
def utf8Bytes (s : String) : List Nat :=
  s.data.flatMap utf8Char

/-- Truncation to a 32-bit word. -/
def w32 (n : Nat) : Nat := n % 4294967296

/-- 32-bit left rotation. -/
def rotl32 (s n : Nat) : Nat :=
  w32 ((n <<< s) ||| (n >>> (32 - s)))

/-- SHA-1 round function f_t (RFC 3174 section 5). -/
def sha1f (t b c d : Nat) : Nat :=
  if t < 20 then (b &&& c) ||| ((0xFFFFFFFF ^^^ b) &&& d)
  else if t < 40 then b ^^^ c ^^^ d
  else if t < 60 then (b &&& c) ||| (b &&& d) ||| (c &&& d)
  else b ^^^ c ^^^ d

/-- SHA-1 round constants K_t (RFC 3174 section 5). -/
def sha1k (t : Nat) : Nat :=
  if t < 20 then 0x5A827999
  else if t < 40 then 0x6ED9EBA1
  else if t < 60 then 0x8F1BBCDC
  else 0xCA62C1D6

/-- SHA-1 message padding: append 0x80, zero bytes to 56 mod 64, then the
bit length as 8 big-endian bytes (RFC 3174 section 4). -/
def sha1pad (msg : List Nat) : List Nat :=
  let l := msg.length
  let zeros := (120 - (l + 1) % 64) % 64
  msg ++ [0x80] ++ List.replicate zeros 0 ++ natToBytesBE 8 (8 * l)

/-- Group bytes into big-endian 32-bit words. -/
def bytesToWords : List Nat → List Nat
  | a :: b :: c :: d :: rest => (((a * 256 + b) * 256 + c) * 256 + d) :: bytesToWords rest
  | _ => []

/-- Extend a 16-word block to the 80-word message schedule:
W_t = rotl1 (W_(t-3) xor W_(t-8) xor W_(t-14) xor W_(t-16)). -/
def sha1extend : List Nat → Nat → List Nat
  | ws, 0 => ws
  | ws, n + 1 =>
    let t := ws.length
    let w := rotl32 1 (ws.getD (t - 3) 0 ^^^ ws.getD (t - 8) 0 ^^^
                       ws.getD (t - 14) 0 ^^^ ws.getD (t - 16) 0)
    sha1extend (ws ++ [w]) n

/-- One SHA-1 round: state (a,b,c,d,e) updated with round index t and word w. -/
def sha1round (st : Nat × Nat × Nat × Nat × Nat) (tw : Nat × Nat) :
    Nat × Nat × Nat × Nat × Nat :=
  let (a, b, c, d, e) := st
  let (t, w) := tw
  (w32 (rotl32 5 a + sha1f t b c d + e + sha1k t + w), a, rotl32 30 b, c, d)

/-- SHA-1 compression of one 16-word block into the running hash state. -/
def sha1compress (h : Nat × Nat × Nat × Nat × Nat) (block : List Nat) :
    Nat × Nat × Nat × Nat × Nat :=
  let ws := sha1extend block 64
  let (h0, h1, h2, h3, h4) := h
  let (a, b, c, d, e) := ((List.range 80).zip ws).foldl sha1round h
  (w32 (h0 + a), w32 (h1 + b), w32 (h2 + c), w32 (h3 + d), w32 (h4 + e))

/-- Fold SHA-1 compression over successive 16-word blocks.  The first
argument is recursion fuel: each step consumes at least one word, so any
fuel at least the word count computes the full fold (structural recursion
on the fuel keeps the definition kernel-reducible). -/
def sha1blocks : Nat → (Nat × Nat × Nat × Nat × Nat) → List Nat →
    Nat × Nat × Nat × Nat × Nat
  | 0, h, _ => h
  | _, h, [] => h
  | fuel + 1, h, w :: ws =>
    sha1blocks fuel (sha1compress h ((w :: ws).take 16)) ((w :: ws).drop 16)

/-- SHA-1 digest of a byte string, as 20 bytes (RFC 3174). -/
def sha1 (msg : List Nat) : List Nat :=
  let words := bytesToWords (sha1pad msg)
  let (h0, h1, h2, h3, h4) :=
    sha1blocks words.length
      (0x67452301, 0xEFCDAB89, 0x98BADCFE, 0x10325476, 0xC3D2E1F0) words
  natToBytesBE 4 h0 ++ natToBytesBE 4 h1 ++ natToBytesBE 4 h2 ++
  natToBytesBE 4 h3 ++ natToBytesBE 4 h4

/-! ## UUIDs (as in Python's `uuid` module) -/

/-- A UUID: a 128-bit integer, as in Python's `uuid.UUID.int`. -/
structure UUID where
  val : Nat
deriving DecidableEq, Repr

/-- The 16 big-endian bytes of a UUID, Python `UUID.bytes`. -/
def UUID.bytes (u : UUID) : List Nat := natToBytesBE 16 u.val

/-- Clear the bits of `mask` in `n`: Python `n & ~mask` for non-negative `n`
(the masked bits are a sub-pattern of `n`, so subtraction of the overlap
is exactly the bitwise clear). -/
def clearBits (n mask : Nat) : Nat := n - n.land mask

/-- Python `uuid.UUID(bytes=..., version=v)` bit surgery on the 128-bit
integer: set the RFC 4122 variant bits and the version nibble. -/
def setVersionBits (v n : Nat) : Nat :=
  let n1 := clearBits n (0xC000 <<< 48) ||| (0x8000 <<< 48)
  clearBits n1 (0xF000 <<< 64) ||| (v <<< 76)

/-- Python `uuid.uuid5(namespace, name)`: SHA-1 of the namespace bytes
followed by the UTF-8 encoded name, truncated to 16 bytes, with version 5
bits applied. -/
def uuid5 (ns : UUID) (name : String) : UUID :=
  ⟨setVersionBits 5 (bytesToNatBE ((sha1 (ns.bytes ++ utf8Bytes name)).take 16))⟩

/-- Python `uuid.uuid4()`: a random 128-bit value with version 4 bits
applied.  The 16 random bytes from `os.urandom` are modelled as an explicit
natural-number argument (reduced to 128 bits). -/
def uuid4 (r : Nat) : UUID :=
  ⟨setVersionBits 4 (r % 340282366920938463463374607431768211456)⟩

/-- Lower-case hexadecimal digit for a value below 16. -/
def hexDigit (n : Nat) : Char :=
  if n < 10 then Char.ofNat (48 + n) else Char.ofNat (87 + n)

/-- Fixed-width lower-case hexadecimal rendering (Python `'%0*x'`). -/
def hexChars : Nat → Nat → List Char
  | 0, _ => []
  | w + 1, n => hexChars w (n / 16) ++ [hexDigit (n % 16)]

/-- Python `UUID.hex`: 32 lower-case hex characters, `'%032x' % int`. -/
def UUID.hex (u : UUID) : String := ⟨hexChars 32 u.val⟩

/-- Python `str(UUID)`: the 32 hex characters in 8-4-4-4-12 groups joined
by hyphens. -/
def uuidStr (u : UUID) : String :=
  let h := hexChars 32 u.val
  ⟨h.take 8 ++ '-' :: (h.drop 8).take 4 ++ '-' :: (h.drop 12).take 4 ++
   '-' :: (h.drop 16).take 4 ++ '-' :: h.drop 20⟩

/-! ## Python string helpers used by the script -/

/-- Python `s.upper()`, for the ASCII range (`Char.toUpper` maps a-z to A-Z
and leaves everything else unchanged; all paths in this development are
ASCII, where this agrees with Python). -/
def pyUpper (s : String) : String := ⟨s.data.map Char.toUpper⟩

/-- Python `s.split(c)[0]`: the characters before the first occurrence of
`c` (the whole string when `c` does not occur). -/
def pySplitHead (s : String) (c : Char) : String :=
  ⟨s.data.takeWhile (fun ch => ch ≠ c)⟩

/-- Python `(v.split('=', 1) + [''])[0:2]` from the variable-argument loop:
the name before the first `=` and the remainder after it, with an empty
value when there is no `=`. -/
def parseVar (v : String) : String × String :=
  let pre := v.data.takeWhile (fun ch => ch ≠ '=')
  if pre.length = v.data.length then (v, "")
  else (⟨pre⟩, ⟨v.data.drop (pre.length + 1)⟩)

/-- Python `s.rfind(c)`: index of the last occurrence, `-1` when absent. -/
def pyRfind (l : List Char) (c : Char) : Int :=
  match (l.enum.filter (fun p => p.2 = c)).getLast? with
  | some p => (p.1 : Int)
  | none => -1

/-- Python `os.path.splitext` (posix separators): split off the extension
at the last dot of the final path component, unless that component consists
only of leading dots up to there. -/
def splitext (p : String) : String × String :=
  let l := p.data
  let sepIndex := pyRfind l '/'
  let dotIndex := pyRfind l '.'
  if sepIndex < dotIndex then
    let fi := sepIndex + 1
    if ((l.drop fi.toNat).take (dotIndex - fi).toNat).all (fun ch => ch = '.') then
      (p, "")
    else
      (⟨l.take dotIndex.toNat⟩, ⟨l.drop dotIndex.toNat⟩)
  else (p, "")

/-! ## Source trees and XML documents -/

mutual
/-- A source-tree entry as seen by `os.scandir`: a subdirectory with its
entries, or a plain file.  Mutual with `FsList` (rather than nested through
`List`) so that all recursions stay structural and kernel-reducible. -/
inductive FsEntry : Type where
  | dir : String → FsList → FsEntry
  | file : String → FsEntry

/-- A list of source-tree entries. -/
inductive FsList : Type where
  | nil : FsList
  | cons : FsEntry → FsList → FsList
end

mutual
/-- An XML element as built by `xml.etree.ElementTree`: tag, attributes in
insertion order, children in insertion order. -/
inductive Xml : Type where
  | elem : String → List (String × String) → XmlList → Xml

/-- A list of XML elements. -/
inductive XmlList : Type where
  | nil : XmlList
  | cons : Xml → XmlList → XmlList
end

/-- Append two XML child lists. -/
def XmlList.append : XmlList → XmlList → XmlList
  | .nil, ys => ys
  | .cons x xs, ys => .cons x (xs.append ys)

/-- Convert a plain list of elements into an XML child list. -/
def XmlList.ofList : List Xml → XmlList
  | [] => .nil
  | x :: xs => .cons x (XmlList.ofList xs)

/-- Attribute lookup, defaulting to the empty string. -/
def Xml.attr (a : String) : Xml → String
  | .elem _ attrs _ => (attrs.lookup a).getD ""

/-! ## Source-tree measures and logical paths -/

mutual
/-- Number of files in an entry, at any depth. -/
def numFilesE : FsEntry → Nat
  | .file _ => 1
  | .dir _ ch => numFilesL ch

/-- Number of files in an entry list, at any depth. -/
def numFilesL : FsList → Nat
  | .nil => 0
  | .cons e r => numFilesE e + numFilesL r
end

mutual
/-- Number of directories in an entry, at any depth. -/
def numDirsE : FsEntry → Nat
  | .file _ => 0
  | .dir _ ch => 1 + numDirsL ch

/-- Number of directories in an entry list, at any depth. -/
def numDirsL : FsList → Nat
  | .nil => 0
  | .cons e r => numDirsE e + numDirsL r
end

mutual
/-- Logical paths (`dirpath/UPPERNAME` seeds of `uuid5`, line 105 of the
source) of all files in an entry, in traversal order. -/
def filePathsE : String → FsEntry → List String
  | dp, .file n => [dp ++ "/" ++ pyUpper n]
  | dp, .dir n ch => filePathsL (dp ++ "/" ++ pyUpper n) ch

/-- Logical paths of all files in an entry list, in traversal order. -/
def filePathsL : String → FsList → List String
  | _, .nil => []
  | dp, .cons e r => filePathsE dp e ++ filePathsL dp r
end

mutual
/-- Logical paths of all directories in an entry, in traversal order. -/
def dirPathsE : String → FsEntry → List String
  | _, .file _ => []
  | dp, .dir n ch => (dp ++ "/" ++ pyUpper n) :: dirPathsL (dp ++ "/" ++ pyUpper n) ch

/-- Logical paths of all directories in an entry list, in traversal order. -/
def dirPathsL : String → FsList → List String
  | _, .nil => []
  | dp, .cons e r => dirPathsE dp e ++ dirPathsL dp r
end

/-! ## The directory walker (`walkdir`, lines 103-121 of the source) -/

/-- The shortcut-match test from line 115 of the source:
`args.shortcut is not None and installdirpath + '/' + args.shortcut.upper() == idpath`. -/
def shortcutMatch (t? : Option String) (ip idpath : String) : Bool :=
  match t? with
  | none => false
  | some t => ip ++ "/" ++ pyUpper t == idpath

/-- Result of a walk: the elements appended to the enclosing directory
element, the `ComponentRef` elements appended to the feature, the number of
`ProgramMenuFolder` directory elements appended to the target directory,
and the `Id` of the element held by the `shortcutel` global (the last
`Shortcut` created, if any). -/
structure WalkOut where
  children : XmlList
  refs : List Xml
  menu : Nat
  shortcutId : Option String

mutual
/-- One iteration of the `for e in os.scandir(sourcepath)` loop of
`walkdir`: a directory entry recurses, a file entry becomes a `Component`
with one `File` (plus a `Shortcut` on a target match). -/
def walkdirEntry (uc : UUID) (t? : Option String) (pn ip : String) :
    String → String → FsEntry → WalkOut
  | sp, dp, .file name =>
    let idpath := dp ++ "/" ++ pyUpper name
    let iduuid := uuid5 uc idpath
    let matched := shortcutMatch t? ip idpath
    let scs : XmlList :=
      if matched then
        .cons (Xml.elem "Shortcut"
          [("Id", "Shortcut_" ++ iduuid.hex), ("Directory", "ProgramMenuFolder"),
           ("Advertise", "yes"), ("Name", pn)] .nil) .nil
      else .nil
    let f := Xml.elem "File"
      [("Name", name), ("DiskId", "1"), ("Source", sp ++ "/" ++ name),
       ("KeyPath", "yes"), ("Id", "File_" ++ iduuid.hex)] scs
    { children := .cons (Xml.elem "Component"
        [("Id", "Comp_" ++ iduuid.hex), ("Guid", uuidStr iduuid)] (.cons f .nil)) .nil,
      refs := [Xml.elem "ComponentRef" [("Id", "Comp_" ++ iduuid.hex)] .nil],
      menu := if matched then 1 else 0,
      shortcutId := if matched then some ("Shortcut_" ++ iduuid.hex) else none }
  | sp, dp, .dir name ch =>
    let idpath := dp ++ "/" ++ pyUpper name
    let iduuid := uuid5 uc idpath
    let sub := walkdir uc t? pn ip (sp ++ "/" ++ name) idpath ch
    { children := .cons (Xml.elem "Directory"
        [("Name", name), ("Id", "Dir_" ++ iduuid.hex)] sub.children) .nil,
      refs := sub.refs,
      menu := sub.menu,
      shortcutId := sub.shortcutId }

/-- `walkdir(direl, sourcepath, dirpath)` over a list of entries.  The
`shortcutel` global is last-assignment-wins, so a later entry's shortcut
overrides an earlier one's. -/
def walkdir (uc : UUID) (t? : Option String) (pn ip : String) :
    String → String → FsList → WalkOut
  | _, _, .nil => ⟨.nil, [], 0, none⟩
  | sp, dp, .cons e rest =>
    let w1 := walkdirEntry uc t? pn ip sp dp e
    let w2 := walkdir uc t? pn ip sp dp rest
    { children := w1.children.append w2.children,
      refs := w1.refs ++ w2.refs,
      menu := w1.menu + w2.menu,
      shortcutId := match w2.shortcutId with
        | some s => some s
        | none => w1.shortcutId }
end

/-! ## Top-level document assembly (lines 34-159 of the source) -/

/-- Severity of a logging call: `logging.warning` or `logging.error`. -/
inductive LogLevel : Type where
  | warning : LogLevel
  | error : LogLevel
deriving DecidableEq, Repr

/-- One record on the diagnostic stream. -/
abbrev Diag := LogLevel × String

/-- Resolved command-line configuration (the argparse results).  The
output paths and the flags consumed only by the external toolchain are
omitted: they do not influence the generated document. -/
structure Config where
  name : String
  manufacturer : Option String := none
  upgradeCode : Option UUID := none
  version : Option String := none
  codepage : Int := 1252
  language : Int := 0
  x64 : Bool := false
  shortcut : Option String := none
  icon : Option String := none
  withUI : Option String := none
  varDefs : List String := []
  sourcedirectory : String := "."

/-- `progfilesdir.attrib['Id']`: the program-files directory id selected by
the `--x64` flag (lines 72-75). -/
def progfilesId (cfg : Config) : String :=
  if cfg.x64 then "ProgramFiles64Folder" else "ProgramFilesFolder"

/-- `installdirpath` (line 77): seed prefix for all identifier derivation. -/
def installdirpath (cfg : Config) : String :=
  progfilesId cfg ++ "/" ++ cfg.name

/-- The effective upgrade code: the configured one, or the generated
`uuid4` (line 57) whose random bytes are the argument `r`. -/
def effUpgradeCode (cfg : Config) (r : Nat) : UUID :=
  cfg.upgradeCode.getD (uuid4 r)

/-- The effective version: the configured one, or the `'0.0.1'` default
(line 62). -/
def effVersion (cfg : Config) : String :=
  cfg.version.getD "0.0.1"

/-- The walk performed by `addfiles` (line 124):
`walkdir(installdir, sourcedir, installdirpath)`. -/
def theWalk (cfg : Config) (tree : FsList) (r : Nat) : WalkOut :=
  walkdir (effUpgradeCode cfg r) cfg.shortcut cfg.name (installdirpath cfg)
    cfg.sourcedirectory (installdirpath cfg) tree

mutual
/-- `shortcutel.attrib['Icon'] = iconid` (line 154): append the `Icon`
attribute to the element last bound to `shortcutel`, which is the last
`Shortcut` element in creation (pre-)order.  Children are searched before
the element itself and from the right, which locates exactly that element;
the Boolean reports whether it was found in this subtree. -/
def addIconLastX (icon : String) : Xml → Xml × Bool
  | .elem t a c =>
    if (addIconLastL icon c).2 then (.elem t a (addIconLastL icon c).1, true)
    else if t = "Shortcut" then (.elem t (a ++ [("Icon", icon)]) c, true)
    else (.elem t a c, false)

/-- `addIconLastX` over a child list, searching from the right. -/
def addIconLastL (icon : String) : XmlList → XmlList × Bool
  | .nil => (.nil, false)
  | .cons x xs =>
    if (addIconLastL icon xs).2 then (.cons x (addIconLastL icon xs).1, true)
    else (.cons (addIconLastX icon x).1 xs, (addIconLastX icon x).2)
end

/-- Result of a run: the document rooted at the `Wix` element, and the
diagnostic records in emission order. -/
structure RunResult where
  doc : Xml
  diags : List Diag

/-- The whole document-producing part of the script (lines 52-159): default
generation with warnings, the fixed product skeleton, the walk, the
missing-shortcut diagnostic, and the icon block.  `r` stands for the random
bytes consumed by `uuid4` when no upgrade code is configured; temporary-file
paths (`tmpdir`) are abstracted away from the icon `SourceFile` attribute. -/
def run (cfg : Config) (tree : FsList) (r : Nat) : RunResult :=
  let manu := cfg.manufacturer.getD cfg.name
  let uc := effUpgradeCode cfg r
  let ucDiags : List Diag :=
    match cfg.upgradeCode with
    | some _ => []
    | none =>
      [(.warning, "no UpgradeCode specified, generating one for you"),
       (.warning, "    --upgrade-code=" ++ uuidStr (uuid4 r))]
  let verDiags : List Diag :=
    match cfg.version with
    | some _ => []
    | none =>
      [(.warning, "no version specified, generating one for you"),
       (.warning, "    --version=0.0.1")]
  let w := theWalk cfg tree r
  let package := Xml.elem "Package"
    [("Id", "*"), ("InstallerVersion", "200"), ("Compressed", "yes"),
     ("Languages", toString cfg.language), ("SummaryCodepage", toString cfg.codepage),
     ("Description", cfg.name), ("Manufacturer", manu)] .nil
  let media := Xml.elem "Media"
    [("Id", "1"), ("Cabinet", "Media1.cab"), ("EmbedCab", "yes")] .nil
  let majorUpgrade := Xml.elem "MajorUpgrade"
    [("AllowDowngrades", "yes"), ("Schedule", "afterInstallExecute")] .nil
  let installdir := Xml.elem "Directory"
    [("Id", "INSTALLDIR"), ("Name", cfg.name)] w.children
  let progfiles := Xml.elem "Directory"
    [("Id", progfilesId cfg), ("Name", "ProgramFiles")] (.cons installdir .nil)
  let menuDirs := List.replicate w.menu (Xml.elem "Directory"
    [("Id", "ProgramMenuFolder"), ("Name", "All Programs")] .nil)
  let targetdir := Xml.elem "Directory"
    [("Id", "TARGETDIR"), ("Name", "SourceDir")]
    (.cons progfiles (XmlList.ofList menuDirs))
  let feature := Xml.elem "Feature"
    [("Id", "Complete"), ("Level", "1")] (XmlList.ofList w.refs)
  let reinstall := Xml.elem "Property"
    [("Id", "REINSTALLMODE"), ("Value", "amus")] .nil
  let uiElems : List Xml :=
    match cfg.withUI with
    | some _ =>
      [Xml.elem "Property" [("Id", "WIXUI_INSTALLDIR"), ("Value", "INSTALLDIR")] .nil,
       Xml.elem "UIRef" [("Id", "WixUI_InstallDir")] .nil,
       Xml.elem "SetProperty"
         [("Id", "ARPNOMODIFY"), ("Value", "1"), ("After", "InstallValidate"),
          ("Sequence", "execute")] .nil]
    | none => [Xml.elem "Property" [("Id", "ARPNOMODIFY"), ("Value", "yes")] .nil]
  let varElems := cfg.varDefs.map (fun v =>
    Xml.elem "WixVariable" [("Id", (parseVar v).1), ("Value", (parseVar v).2)] .nil)
  let children0 := XmlList.ofList
    ([package, media, majorUpgrade, targetdir, feature, reinstall] ++ uiElems ++ varElems)
  let shortcutDiags : List Diag :=
    match cfg.shortcut, w.shortcutId with
    | some t, none => [(.error, "couldn’t create shortcut " ++ t ++ ": file not found")]
    | _, _ => []
  let withIcon : XmlList × List Xml :=
    match cfg.icon with
    | none => (children0, [])
    | some _ =>
      match w.shortcutId with
      | some sid =>
        let iconid := "Icon_" ++ pySplitHead sid '_' ++
          pyUpper (splitext (cfg.shortcut.getD "")).2
        ((addIconLastL iconid children0).1,
         [Xml.elem "Icon" [("Id", iconid), ("SourceFile", "appico.dll")] .nil,
          Xml.elem "Property" [("Id", "ARPPRODUCTICON"), ("Value", iconid)] .nil])
      | none =>
        (children0,
         [Xml.elem "Icon" [("Id", "app.ico"), ("SourceFile", "appico.dll")] .nil,
          Xml.elem "Property" [("Id", "ARPPRODUCTICON"), ("Value", "app.ico")] .nil])
  let product := Xml.elem "Product"
    [("Name", cfg.name), ("Id", "*"), ("UpgradeCode", uuidStr uc),
     ("Codepage", toString cfg.codepage), ("Manufacturer", manu),
     ("Version", effVersion cfg), ("Language", toString cfg.language)]
    (withIcon.1.append (XmlList.ofList withIcon.2))
  let wix := Xml.elem "Wix"
    [("xmlns", "http://schemas.microsoft.com/wix/2006/wi")] (.cons product .nil)
  ⟨wix, ucDiags ++ verDiags ++ shortcutDiags⟩

/-! ## Observation functions over documents -/

mutual
/-- Number of elements with the given tag anywhere in an element. -/
def countTagsX (t : String) : Xml → Nat
  | .elem tg _ c => (if tg = t then 1 else 0) + countTagsL t c

/-- Number of elements with the given tag anywhere in a child list. -/
def countTagsL (t : String) : XmlList → Nat
  | .nil => 0
  | .cons x xs => countTagsX t x + countTagsL t xs
end

mutual
/-- The values of attribute `a` on all elements with tag `t`, in document
(pre-)order. -/
def collectAttrsX (t a : String) : Xml → List String
  | .elem tg attrs c =>
    (if tg = t then [((attrs.lookup a).getD "")] else []) ++ collectAttrsL t a c

/-- `collectAttrsX` over a child list. -/
def collectAttrsL (t a : String) : XmlList → List String
  | .nil => []
  | .cons x xs => collectAttrsX t a x ++ collectAttrsL t a xs
end

mutual
/-- For every `File` element, in document order: its `Id` attribute paired
with the number of `Shortcut` elements among its descendants. -/
def fileShortcutsX : Xml → List (String × Nat)
  | .elem tg attrs c =>
    (if tg = "File" then [(((attrs.lookup "Id").getD ""), countTagsL "Shortcut" c)]
     else []) ++ fileShortcutsL c

/-- `fileShortcutsX` over a child list. -/
def fileShortcutsL : XmlList → List (String × Nat)
  | .nil => []
  | .cons x xs => fileShortcutsX x ++ fileShortcutsL xs
end

/-! ## The identifier deriver and spec-side syntactic predicates -/

/-- The identifier deriver of the spec, as implemented on lines 105-113 of
the source: a role tag prefixed to the hyphen-free hexadecimal form of
`uuid5(upgradeCode, logicalPath)`. -/
def derive (role : String) (uc : UUID) (p : String) : String :=
  role ++ (uuid5 uc p).hex

/-- An ASCII letter. -/
def isAsciiLetter (c : Char) : Bool :=
  (65 ≤ c.toNat && c.toNat ≤ 90) || (97 ≤ c.toNat && c.toNat ≤ 122)

/-- An ASCII decimal digit. -/
def isAsciiDigit (c : Char) : Bool :=
  48 ≤ c.toNat && c.toNat ≤ 57

/-- Character-list core of `validIdToken`. -/
def validIdTokenChars : List Char → Bool
  | [] => false
  | c :: rest =>
    isAsciiLetter c &&
    (c :: rest).all (fun ch => isAsciiLetter ch || isAsciiDigit ch || ch = '_')

/-- Spec-side notion of a syntactically valid identifier token: nonempty,
starts with a letter, and every character is a letter, a digit or an
underscore — in particular no hyphens or other separator characters. -/
def validIdToken (s : String) : Bool :=
  validIdTokenChars s.data

/-- A lower-case hexadecimal character. -/
def isHexChar (c : Char) : Bool :=
  (48 ≤ c.toNat && c.toNat ≤ 57) || (97 ≤ c.toNat && c.toNat ≤ 102)

/-- Spec-side notion of a syntactically valid UUID string: five hyphen
separated groups of lower-case hex characters with lengths 8-4-4-4-12. -/
def validUUIDString (s : String) : Prop :=
  ∃ a b c d e : List Char,
    a.length = 8 ∧ b.length = 4 ∧ c.length = 4 ∧ d.length = 4 ∧ e.length = 12 ∧
    a.all isHexChar ∧ b.all isHexChar ∧ c.all isHexChar ∧ d.all isHexChar ∧
    e.all isHexChar ∧
    s.data = a ++ '-' :: b ++ '-' :: c ++ '-' :: d ++ '-' :: e

/-- Spec-side notion of a syntactically valid version string: nonempty
groups of decimal digits separated by single dots (e.g. `0.0.1`). -/
def validVersionString (s : String) : Bool :=
  match s.data with
  | [] => false
  | c :: _ =>
    c.isDigit && s.data.getLast?.all Char.isDigit &&
    s.data.all (fun ch => ch.isDigit || ch = '.') &&
    (s.data.zip s.data.tail).all (fun p => p.1 ≠ '.' || p.2 ≠ '.')

/-- The canonical hyphenated string form of a 32-character hexadecimal
token: hyphens inserted after 8, 12, 16 and 20 characters (the spec's
description of a GUID rendering). -/
def canonicalHyphenated (h : List Char) : List Char :=
  h.take 8 ++ '-' :: (h.drop 8).take 4 ++ '-' :: (h.drop 12).take 4 ++
  '-' :: (h.drop 16).take 4 ++ '-' :: h.drop 20

/-! ## Collector lemmas over list operations -/

theorem countTagsL_append (t : String) : ∀ xs ys : XmlList,
    countTagsL t (xs.append ys) = countTagsL t xs + countTagsL t ys
  | .nil, ys => by simp [XmlList.append, countTagsL]
  | .cons x xs, ys => by
    simp [XmlList.append, countTagsL, countTagsL_append t xs ys]; omega

theorem collectAttrsL_append (t a : String) : ∀ xs ys : XmlList,
    collectAttrsL t a (xs.append ys) = collectAttrsL t a xs ++ collectAttrsL t a ys
  | .nil, ys => by simp [XmlList.append, collectAttrsL]
  | .cons x xs, ys => by
    simp [XmlList.append, collectAttrsL, collectAttrsL_append t a xs ys]

theorem fileShortcutsL_append : ∀ xs ys : XmlList,
    fileShortcutsL (xs.append ys) = fileShortcutsL xs ++ fileShortcutsL ys
  | .nil, ys => by simp [XmlList.append, fileShortcutsL]
  | .cons x xs, ys => by
    simp [XmlList.append, fileShortcutsL, fileShortcutsL_append xs ys]

theorem countTagsL_ofList (t : String) : ∀ l : List Xml,
    countTagsL t (XmlList.ofList l) = (l.map (countTagsX t)).sum
  | [] => by simp [XmlList.ofList, countTagsL]
  | x :: xs => by simp [XmlList.ofList, countTagsL, countTagsL_ofList t xs]

theorem collectAttrsL_ofList (t a : String) : ∀ l : List Xml,
    collectAttrsL t a (XmlList.ofList l) = l.flatMap (collectAttrsX t a)
  | [] => by simp [XmlList.ofList, collectAttrsL]
  | x :: xs => by simp [XmlList.ofList, collectAttrsL, collectAttrsL_ofList t a xs]

theorem fileShortcutsL_ofList : ∀ l : List Xml,
    fileShortcutsL (XmlList.ofList l) = l.flatMap fileShortcutsX
  | [] => by simp [XmlList.ofList, fileShortcutsL]
  | x :: xs => by simp [XmlList.ofList, fileShortcutsL, fileShortcutsL_ofList xs]

/-! ## Characterisation of the walk -/

/-- Closed form of the `shortcutel` result of a walk: when a shortcut
target is configured and some file's logical path equals the target's
logical path, the recorded id is the `Shortcut_` identifier derived from
that path; otherwise nothing is recorded. -/
def walkShortcutSpec (uc : UUID) (t? : Option String) (ip : String)
    (paths : List String) : Option String :=
  match t? with
  | none => none
  | some t =>
    if (ip ++ "/" ++ pyUpper t) ∈ paths then
      some ("Shortcut_" ++ (uuid5 uc (ip ++ "/" ++ pyUpper t)).hex)
    else none

mutual
theorem walkCountComp_entry (uc : UUID) (t? : Option String) (pn ip : String) :
    ∀ (sp dp : String) (e : FsEntry),
    countTagsL "Component" (walkdirEntry uc t? pn ip sp dp e).children = numFilesE e
  | sp, dp, .file name => by
    cases hm : shortcutMatch t? ip (dp ++ "/" ++ pyUpper name) <;>
      simp [walkdirEntry, hm, countTagsL, countTagsX, numFilesE]
  | sp, dp, .dir name ch => by
    simp [walkdirEntry, countTagsL, countTagsX, numFilesE,
      walkCountComp_list uc t? pn ip (sp ++ "/" ++ name) (dp ++ "/" ++ pyUpper name) ch]

theorem walkCountComp_list (uc : UUID) (t? : Option String) (pn ip : String) :
    ∀ (sp dp : String) (l : FsList),
    countTagsL "Component" (walkdir uc t? pn ip sp dp l).children = numFilesL l
  | sp, dp, .nil => by simp [walkdir, countTagsL, numFilesL]
  | sp, dp, .cons e rest => by
    simp [walkdir, countTagsL_append, numFilesL,
      walkCountComp_entry uc t? pn ip sp dp e,
      walkCountComp_list uc t? pn ip sp dp rest]
end

mutual
theorem walkCountDir_entry (uc : UUID) (t? : Option String) (pn ip : String) :
    ∀ (sp dp : String) (e : FsEntry),
    countTagsL "Directory" (walkdirEntry uc t? pn ip sp dp e).children = numDirsE e
  | sp, dp, .file name => by
    cases hm : shortcutMatch t? ip (dp ++ "/" ++ pyUpper name) <;>
      simp [walkdirEntry, hm, countTagsL, countTagsX, numDirsE]
  | sp, dp, .dir name ch => by
    simp [walkdirEntry, countTagsL, countTagsX, numDirsE,
      walkCountDir_list uc t? pn ip (sp ++ "/" ++ name) (dp ++ "/" ++ pyUpper name) ch]

theorem walkCountDir_list (uc : UUID) (t? : Option String) (pn ip : String) :
    ∀ (sp dp : String) (l : FsList),
    countTagsL "Directory" (walkdir uc t? pn ip sp dp l).children = numDirsL l
  | sp, dp, .nil => by simp [walkdir, countTagsL, numDirsL]
  | sp, dp, .cons e rest => by
    simp [walkdir, countTagsL_append, numDirsL,
      walkCountDir_entry uc t? pn ip sp dp e,
      walkCountDir_list uc t? pn ip sp dp rest]
end

mutual
theorem walkCountShortcut_entry (uc : UUID) (t? : Option String) (pn ip : String) :
    ∀ (sp dp : String) (e : FsEntry),
    countTagsL "Shortcut" (walkdirEntry uc t? pn ip sp dp e).children =
      ((filePathsE dp e).filter (shortcutMatch t? ip)).length
  | sp, dp, .file name => by
    cases hm : shortcutMatch t? ip (dp ++ "/" ++ pyUpper name) <;>
      simp [walkdirEntry, hm, countTagsL, countTagsX, filePathsE, List.filter]
  | sp, dp, .dir name ch => by
    simp [walkdirEntry, countTagsL, countTagsX, filePathsE,
      walkCountShortcut_list uc t? pn ip (sp ++ "/" ++ name) (dp ++ "/" ++ pyUpper name) ch]

theorem walkCountShortcut_list (uc : UUID) (t? : Option String) (pn ip : String) :
    ∀ (sp dp : String) (l : FsList),
    countTagsL "Shortcut" (walkdir uc t? pn ip sp dp l).children =
      ((filePathsL dp l).filter (shortcutMatch t? ip)).length
  | sp, dp, .nil => by simp [walkdir, countTagsL, filePathsL]
  | sp, dp, .cons e rest => by
    simp [walkdir, countTagsL_append, filePathsL,
      walkCountShortcut_entry uc t? pn ip sp dp e,
      walkCountShortcut_list uc t? pn ip sp dp rest]
end

mutual
theorem walkCountOther_entry (uc : UUID) (t? : Option String) (pn ip : String)
    (t : String) (h1 : t ≠ "Directory") (h2 : t ≠ "Component") (h3 : t ≠ "File")
    (h4 : t ≠ "Shortcut") :
    ∀ (sp dp : String) (e : FsEntry),
    countTagsL t (walkdirEntry uc t? pn ip sp dp e).children = 0
  | sp, dp, .file name => by
    cases hm : shortcutMatch t? ip (dp ++ "/" ++ pyUpper name) <;>
      simp [walkdirEntry, hm, countTagsL, countTagsX,
        Ne.symm h1, Ne.symm h2, Ne.symm h3, Ne.symm h4]
  | sp, dp, .dir name ch => by
    simp [walkdirEntry, countTagsL, countTagsX, Ne.symm h1,
      walkCountOther_list uc t? pn ip t h1 h2 h3 h4
        (sp ++ "/" ++ name) (dp ++ "/" ++ pyUpper name) ch]

theorem walkCountOther_list (uc : UUID) (t? : Option String) (pn ip : String)
    (t : String) (h1 : t ≠ "Directory") (h2 : t ≠ "Component") (h3 : t ≠ "File")
    (h4 : t ≠ "Shortcut") :
    ∀ (sp dp : String) (l : FsList),
    countTagsL t (walkdir uc t? pn ip sp dp l).children = 0
  | sp, dp, .nil => by simp [walkdir, countTagsL]
  | sp, dp, .cons e rest => by
    simp [walkdir, countTagsL_append,
      walkCountOther_entry uc t? pn ip t h1 h2 h3 h4 sp dp e,
      walkCountOther_list uc t? pn ip t h1 h2 h3 h4 sp dp rest]
end

mutual
theorem walkCompIds_entry (uc : UUID) (t? : Option String) (pn ip : String) :
    ∀ (sp dp : String) (e : FsEntry),
    collectAttrsL "Component" "Id" (walkdirEntry uc t? pn ip sp dp e).children =
      (filePathsE dp e).map (fun p => "Comp_" ++ (uuid5 uc p).hex)
  | sp, dp, .file name => by
    cases hm : shortcutMatch t? ip (dp ++ "/" ++ pyUpper name) <;>
      simp [walkdirEntry, hm, collectAttrsL, collectAttrsX, filePathsE, List.lookup]
  | sp, dp, .dir name ch => by
    simp [walkdirEntry, collectAttrsL, collectAttrsX, filePathsE,
      walkCompIds_list uc t? pn ip (sp ++ "/" ++ name) (dp ++ "/" ++ pyUpper name) ch]

theorem walkCompIds_list (uc : UUID) (t? : Option String) (pn ip : String) :
    ∀ (sp dp : String) (l : FsList),
    collectAttrsL "Component" "Id" (walkdir uc t? pn ip sp dp l).children =
      (filePathsL dp l).map (fun p => "Comp_" ++ (uuid5 uc p).hex)
  | sp, dp, .nil => by simp [walkdir, collectAttrsL, filePathsL]
  | sp, dp, .cons e rest => by
    simp [walkdir, collectAttrsL_append, filePathsL,
      walkCompIds_entry uc t? pn ip sp dp e,
      walkCompIds_list uc t? pn ip sp dp rest]
end

mutual
theorem walkGuids_entry (uc : UUID) (t? : Option String) (pn ip : String) :
    ∀ (sp dp : String) (e : FsEntry),
    collectAttrsL "Component" "Guid" (walkdirEntry uc t? pn ip sp dp e).children =
      (filePathsE dp e).map (fun p => uuidStr (uuid5 uc p))
  | sp, dp, .file name => by
    cases hm : shortcutMatch t? ip (dp ++ "/" ++ pyUpper name) <;>
      simp [walkdirEntry, hm, collectAttrsL, collectAttrsX, filePathsE, List.lookup]
  | sp, dp, .dir name ch => by
    simp [walkdirEntry, collectAttrsL, collectAttrsX, filePathsE,
      walkGuids_list uc t? pn ip (sp ++ "/" ++ name) (dp ++ "/" ++ pyUpper name) ch]

theorem walkGuids_list (uc : UUID) (t? : Option String) (pn ip : String) :
    ∀ (sp dp : String) (l : FsList),
    collectAttrsL "Component" "Guid" (walkdir uc t? pn ip sp dp l).children =
      (filePathsL dp l).map (fun p => uuidStr (uuid5 uc p))
  | sp, dp, .nil => by simp [walkdir, collectAttrsL, filePathsL]
  | sp, dp, .cons e rest => by
    simp [walkdir, collectAttrsL_append, filePathsL,
      walkGuids_entry uc t? pn ip sp dp e,
      walkGuids_list uc t? pn ip sp dp rest]
end

mutual
theorem walkFileIds_entry (uc : UUID) (t? : Option String) (pn ip : String) :
    ∀ (sp dp : String) (e : FsEntry),
    collectAttrsL "File" "Id" (walkdirEntry uc t? pn ip sp dp e).children =
      (filePathsE dp e).map (fun p => "File_" ++ (uuid5 uc p).hex)
  | sp, dp, .file name => by
    cases hm : shortcutMatch t? ip (dp ++ "/" ++ pyUpper name) <;>
      simp [walkdirEntry, hm, collectAttrsL, collectAttrsX, filePathsE, List.lookup]
  | sp, dp, .dir name ch => by
    simp [walkdirEntry, collectAttrsL, collectAttrsX, filePathsE,
      walkFileIds_list uc t? pn ip (sp ++ "/" ++ name) (dp ++ "/" ++ pyUpper name) ch]

theorem walkFileIds_list (uc : UUID) (t? : Option String) (pn ip : String) :
    ∀ (sp dp : String) (l : FsList),
    collectAttrsL "File" "Id" (walkdir uc t? pn ip sp dp l).children =
      (filePathsL dp l).map (fun p => "File_" ++ (uuid5 uc p).hex)
  | sp, dp, .nil => by simp [walkdir, collectAttrsL, filePathsL]
  | sp, dp, .cons e rest => by
    simp [walkdir, collectAttrsL_append, filePathsL,
      walkFileIds_entry uc t? pn ip sp dp e,
      walkFileIds_list uc t? pn ip sp dp rest]
end

mutual
theorem walkDirIds_entry (uc : UUID) (t? : Option String) (pn ip : String) :
    ∀ (sp dp : String) (e : FsEntry),
    collectAttrsL "Directory" "Id" (walkdirEntry uc t? pn ip sp dp e).children =
      (dirPathsE dp e).map (fun p => "Dir_" ++ (uuid5 uc p).hex)
  | sp, dp, .file name => by
    cases hm : shortcutMatch t? ip (dp ++ "/" ++ pyUpper name) <;>
      simp [walkdirEntry, hm, collectAttrsL, collectAttrsX, dirPathsE, List.lookup]
  | sp, dp, .dir name ch => by
    simp [walkdirEntry, collectAttrsL, collectAttrsX, dirPathsE, List.lookup,
      walkDirIds_list uc t? pn ip (sp ++ "/" ++ name) (dp ++ "/" ++ pyUpper name) ch]

theorem walkDirIds_list (uc : UUID) (t? : Option String) (pn ip : String) :
    ∀ (sp dp : String) (l : FsList),
    collectAttrsL "Directory" "Id" (walkdir uc t? pn ip sp dp l).children =
      (dirPathsL dp l).map (fun p => "Dir_" ++ (uuid5 uc p).hex)
  | sp, dp, .nil => by simp [walkdir, collectAttrsL, dirPathsL]
  | sp, dp, .cons e rest => by
    simp [walkdir, collectAttrsL_append, dirPathsL,
      walkDirIds_entry uc t? pn ip sp dp e,
      walkDirIds_list uc t? pn ip sp dp rest]
end

mutual
theorem walkShortcutIds_entry (uc : UUID) (t? : Option String) (pn ip : String) :
    ∀ (sp dp : String) (e : FsEntry),
    collectAttrsL "Shortcut" "Id" (walkdirEntry uc t? pn ip sp dp e).children =
      ((filePathsE dp e).filter (shortcutMatch t? ip)).map
        (fun p => "Shortcut_" ++ (uuid5 uc p).hex)
  | sp, dp, .file name => by
    cases hm : shortcutMatch t? ip (dp ++ "/" ++ pyUpper name) <;>
      simp [walkdirEntry, hm, collectAttrsL, collectAttrsX, filePathsE, List.filter, List.lookup]
  | sp, dp, .dir name ch => by
    simp [walkdirEntry, collectAttrsL, collectAttrsX, filePathsE,
      walkShortcutIds_list uc t? pn ip (sp ++ "/" ++ name) (dp ++ "/" ++ pyUpper name) ch]

theorem walkShortcutIds_list (uc : UUID) (t? : Option String) (pn ip : String) :
    ∀ (sp dp : String) (l : FsList),
    collectAttrsL "Shortcut" "Id" (walkdir uc t? pn ip sp dp l).children =
      ((filePathsL dp l).filter (shortcutMatch t? ip)).map
        (fun p => "Shortcut_" ++ (uuid5 uc p).hex)
  | sp, dp, .nil => by simp [walkdir, collectAttrsL, filePathsL]
  | sp, dp, .cons e rest => by
    simp [walkdir, collectAttrsL_append, filePathsL,
      walkShortcutIds_entry uc t? pn ip sp dp e,
      walkShortcutIds_list uc t? pn ip sp dp rest]
end

mutual
theorem walkFileShortcuts_entry (uc : UUID) (t? : Option String) (pn ip : String) :
    ∀ (sp dp : String) (e : FsEntry),
    fileShortcutsL (walkdirEntry uc t? pn ip sp dp e).children =
      (filePathsE dp e).map (fun p =>
        ("File_" ++ (uuid5 uc p).hex, if shortcutMatch t? ip p then 1 else 0))
  | sp, dp, .file name => by
    cases hm : shortcutMatch t? ip (dp ++ "/" ++ pyUpper name) <;>
      simp [walkdirEntry, hm, fileShortcutsL, fileShortcutsX, countTagsL, countTagsX,
        filePathsE, List.lookup]
  | sp, dp, .dir name ch => by
    simp [walkdirEntry, fileShortcutsL, fileShortcutsX, filePathsE,
      walkFileShortcuts_list uc t? pn ip (sp ++ "/" ++ name) (dp ++ "/" ++ pyUpper name) ch]

theorem walkFileShortcuts_list (uc : UUID) (t? : Option String) (pn ip : String) :
    ∀ (sp dp : String) (l : FsList),
    fileShortcutsL (walkdir uc t? pn ip sp dp l).children =
      (filePathsL dp l).map (fun p =>
        ("File_" ++ (uuid5 uc p).hex, if shortcutMatch t? ip p then 1 else 0))
  | sp, dp, .nil => by simp [walkdir, fileShortcutsL, filePathsL]
  | sp, dp, .cons e rest => by
    simp [walkdir, fileShortcutsL_append, filePathsL,
      walkFileShortcuts_entry uc t? pn ip sp dp e,
      walkFileShortcuts_list uc t? pn ip sp dp rest]
end

mutual
theorem walkRefs_entry (uc : UUID) (t? : Option String) (pn ip : String) :
    ∀ (sp dp : String) (e : FsEntry),
    (walkdirEntry uc t? pn ip sp dp e).refs =
      (filePathsE dp e).map (fun p =>
        Xml.elem "ComponentRef" [("Id", "Comp_" ++ (uuid5 uc p).hex)] .nil)
  | sp, dp, .file name => by
    simp [walkdirEntry, filePathsE]
  | sp, dp, .dir name ch => by
    simp [walkdirEntry, filePathsE,
      walkRefs_list uc t? pn ip (sp ++ "/" ++ name) (dp ++ "/" ++ pyUpper name) ch]

theorem walkRefs_list (uc : UUID) (t? : Option String) (pn ip : String) :
    ∀ (sp dp : String) (l : FsList),
    (walkdir uc t? pn ip sp dp l).refs =
      (filePathsL dp l).map (fun p =>
        Xml.elem "ComponentRef" [("Id", "Comp_" ++ (uuid5 uc p).hex)] .nil)
  | sp, dp, .nil => by simp [walkdir, filePathsL]
  | sp, dp, .cons e rest => by
    simp [walkdir, filePathsL,
      walkRefs_entry uc t? pn ip sp dp e,
      walkRefs_list uc t? pn ip sp dp rest]
end

mutual
theorem walkMenu_entry (uc : UUID) (t? : Option String) (pn ip : String) :
    ∀ (sp dp : String) (e : FsEntry),
    (walkdirEntry uc t? pn ip sp dp e).menu =
      ((filePathsE dp e).filter (shortcutMatch t? ip)).length
  | sp, dp, .file name => by
    cases hm : shortcutMatch t? ip (dp ++ "/" ++ pyUpper name) <;>
      simp [walkdirEntry, hm, filePathsE, List.filter]
  | sp, dp, .dir name ch => by
    simp [walkdirEntry, filePathsE,
      walkMenu_list uc t? pn ip (sp ++ "/" ++ name) (dp ++ "/" ++ pyUpper name) ch]

theorem walkMenu_list (uc : UUID) (t? : Option String) (pn ip : String) :
    ∀ (sp dp : String) (l : FsList),
    (walkdir uc t? pn ip sp dp l).menu =
      ((filePathsL dp l).filter (shortcutMatch t? ip)).length
  | sp, dp, .nil => by simp [walkdir, filePathsL]
  | sp, dp, .cons e rest => by
    simp [walkdir, filePathsL,
      walkMenu_entry uc t? pn ip sp dp e,
      walkMenu_list uc t? pn ip sp dp rest]
end

mutual
theorem walkShortcutId_entry (uc : UUID) (t? : Option String) (pn ip : String) :
    ∀ (sp dp : String) (e : FsEntry),
    (walkdirEntry uc t? pn ip sp dp e).shortcutId =
      walkShortcutSpec uc t? ip (filePathsE dp e)
  | sp, dp, .file name => by
    cases t? with
    | none => simp [walkdirEntry, shortcutMatch, walkShortcutSpec, filePathsE]
    | some t =>
      by_cases h : ip ++ "/" ++ pyUpper t = dp ++ "/" ++ pyUpper name
      · simp [walkdirEntry, shortcutMatch, walkShortcutSpec, filePathsE, h]
      · simp [walkdirEntry, shortcutMatch, walkShortcutSpec, filePathsE, h]
  | sp, dp, .dir name ch => by
    simp [walkdirEntry, filePathsE,
      walkShortcutId_list uc t? pn ip (sp ++ "/" ++ name) (dp ++ "/" ++ pyUpper name) ch]

theorem walkShortcutId_list (uc : UUID) (t? : Option String) (pn ip : String) :
    ∀ (sp dp : String) (l : FsList),
    (walkdir uc t? pn ip sp dp l).shortcutId =
      walkShortcutSpec uc t? ip (filePathsL dp l)
  | sp, dp, .nil => by
    cases t? <;> simp [walkdir, walkShortcutSpec, filePathsL]
  | sp, dp, .cons e rest => by
    have he := walkShortcutId_entry uc t? pn ip sp dp e
    have hr := walkShortcutId_list uc t? pn ip sp dp rest
    cases t? with
    | none => simp [walkdir, he, hr, walkShortcutSpec, filePathsL]
    | some t =>
      by_cases hm2 : (ip ++ "/" ++ pyUpper t) ∈ filePathsL dp rest
      · simp [walkdir, he, hr, walkShortcutSpec, filePathsL, hm2]
      · by_cases hm1 : (ip ++ "/" ++ pyUpper t) ∈ filePathsE dp e
        · simp [walkdir, he, hr, walkShortcutSpec, filePathsL, hm1, hm2]
        · simp [walkdir, he, hr, walkShortcutSpec, filePathsL, hm1, hm2]
end

mutual
theorem filePathsLength_entry : ∀ (dp : String) (e : FsEntry),
    (filePathsE dp e).length = numFilesE e
  | dp, .file name => by simp [filePathsE, numFilesE]
  | dp, .dir name ch => by
    simp [filePathsE, numFilesE, filePathsLength_list (dp ++ "/" ++ pyUpper name) ch]

theorem filePathsLength_list : ∀ (dp : String) (l : FsList),
    (filePathsL dp l).length = numFilesL l
  | dp, .nil => by simp [filePathsL, numFilesL]
  | dp, .cons e rest => by
    simp [filePathsL, numFilesL, filePathsLength_entry dp e, filePathsLength_list dp rest]
end

/-! ## Hexadecimal tokens are well-formed identifiers -/

theorem isHex_hexDigit (m : Nat) (h : m < 16) : isHexChar (hexDigit m) = true := by
  have h16 : ∀ i : Fin 16, isHexChar (hexDigit i.val) = true := by decide
  exact h16 ⟨m, h⟩

theorem hexChars_length : ∀ (w n : Nat), (hexChars w n).length = w
  | 0, n => by simp [hexChars]
  | w + 1, n => by simp [hexChars, hexChars_length w (n / 16)]

theorem hexChars_mem : ∀ (w n : Nat) (c : Char), c ∈ hexChars w n → isHexChar c = true
  | 0, n, c => by simp [hexChars]
  | w + 1, n, c => by
    intro hc
    rcases (by simpa [hexChars] using hc :
        c ∈ hexChars w (n / 16) ∨ c = hexDigit (n % 16)) with h | rfl
    · exact hexChars_mem w (n / 16) c h
    · exact isHex_hexDigit _ (Nat.mod_lt _ (by omega))

theorem hexTokenChar (c : Char) (h : isHexChar c = true) :
    (isAsciiLetter c || isAsciiDigit c || c = '_') = true := by
  simp only [isHexChar, isAsciiLetter, isAsciiDigit, Bool.or_eq_true, Bool.and_eq_true,
    decide_eq_true_eq] at h ⊢
  rcases h with ⟨h1, h2⟩ | ⟨h1, h2⟩
  · exact Or.inl (Or.inr ⟨h1, h2⟩)
  · exact Or.inl (Or.inl (Or.inr ⟨h1, by omega⟩))

theorem validIdToken_cons (c0 : Char) (rest : List Char)
    (h0 : isAsciiLetter c0 = true)
    (hall : ∀ c ∈ c0 :: rest, (isAsciiLetter c || isAsciiDigit c || c = '_') = true) :
    validIdTokenChars (c0 :: rest) = true := by
  simp only [validIdTokenChars, Bool.and_eq_true, List.all_eq_true]
  exact ⟨h0, fun c hc => hall c hc⟩

theorem validIdToken_dirId (u : UUID) : validIdToken ("Dir_" ++ u.hex) = true := by
  have hd : ("Dir_" ++ u.hex).data = 'D' :: 'i' :: 'r' :: '_' :: hexChars 32 u.val := by
    simp [UUID.hex, String.data_append]
  rw [validIdToken, hd]
  refine validIdToken_cons _ _ (by decide) ?_
  intro c hc
  simp only [List.mem_cons] at hc
  rcases hc with rfl | rfl | rfl | rfl | hc
  · decide
  · decide
  · decide
  · decide
  · exact hexTokenChar c (hexChars_mem 32 u.val c hc)

theorem validIdToken_compId (u : UUID) : validIdToken ("Comp_" ++ u.hex) = true := by
  have hd : ("Comp_" ++ u.hex).data = 'C' :: 'o' :: 'm' :: 'p' :: '_' :: hexChars 32 u.val := by
    simp [UUID.hex, String.data_append]
  rw [validIdToken, hd]
  refine validIdToken_cons _ _ (by decide) ?_
  intro c hc
  simp only [List.mem_cons] at hc
  rcases hc with rfl | rfl | rfl | rfl | rfl | hc
  · decide
  · decide
  · decide
  · decide
  · decide
  · exact hexTokenChar c (hexChars_mem 32 u.val c hc)

theorem validIdToken_fileId (u : UUID) : validIdToken ("File_" ++ u.hex) = true := by
  have hd : ("File_" ++ u.hex).data = 'F' :: 'i' :: 'l' :: 'e' :: '_' :: hexChars 32 u.val := by
    simp [UUID.hex, String.data_append]
  rw [validIdToken, hd]
  refine validIdToken_cons _ _ (by decide) ?_
  intro c hc
  simp only [List.mem_cons] at hc
  rcases hc with rfl | rfl | rfl | rfl | rfl | hc
  · decide
  · decide
  · decide
  · decide
  · decide
  · exact hexTokenChar c (hexChars_mem 32 u.val c hc)

theorem validUUIDString_uuidStr (u : UUID) : validUUIDString (uuidStr u) := by
  have hlen := hexChars_length 32 u.val
  have hmem : ∀ c ∈ hexChars 32 u.val, isHexChar c = true :=
    fun c hc => hexChars_mem 32 u.val c hc
  refine ⟨(hexChars 32 u.val).take 8, ((hexChars 32 u.val).drop 8).take 4,
    ((hexChars 32 u.val).drop 12).take 4, ((hexChars 32 u.val).drop 16).take 4,
    (hexChars 32 u.val).drop 20, ?_, ?_, ?_, ?_, ?_, ?_, ?_, ?_, ?_, ?_, rfl⟩
  · simp [hlen]
  · simp [hlen]
  · simp [hlen]
  · simp [hlen]
  · simp [hlen]
  · exact List.all_eq_true.mpr fun c hc => hmem c (List.mem_of_mem_take hc)
  · exact List.all_eq_true.mpr fun c hc =>
      hmem c (List.mem_of_mem_drop (List.mem_of_mem_take hc))
  · exact List.all_eq_true.mpr fun c hc =>
      hmem c (List.mem_of_mem_drop (List.mem_of_mem_take hc))
  · exact List.all_eq_true.mpr fun c hc =>
      hmem c (List.mem_of_mem_drop (List.mem_of_mem_take hc))
  · exact List.all_eq_true.mpr fun c hc => hmem c (List.mem_of_mem_drop hc)

/-! ## The icon mutation preserves tags and all other attributes -/

theorem lookup_append_one (a k v : String) (attrs : List (String × String))
    (h : a ≠ k) : List.lookup a (attrs ++ [(k, v)]) = List.lookup a attrs := by
  induction attrs with
  | nil =>
    cases hak : (a == k)
    · simp [List.lookup, hak]
    · exact ((h (eq_of_beq hak)).elim)
  | cons p rest ih =>
    obtain ⟨k', v'⟩ := p
    cases hak : (a == k') <;> simp [List.lookup, hak, ih]

mutual
theorem addIconCount_x (icon t : String) : ∀ x : Xml,
    countTagsX t (addIconLastX icon x).1 = countTagsX t x
  | .elem tg attrs c => by
    by_cases h : (addIconLastL icon c).2
    · simp [addIconLastX, h, countTagsX, addIconCount_l icon t c]
    · by_cases h2 : tg = "Shortcut" <;> simp [addIconLastX, h, h2, countTagsX]

theorem addIconCount_l (icon t : String) : ∀ xs : XmlList,
    countTagsL t (addIconLastL icon xs).1 = countTagsL t xs
  | .nil => by simp [addIconLastL, countTagsL]
  | .cons x xs => by
    by_cases h : (addIconLastL icon xs).2
    · simp [addIconLastL, h, countTagsL, addIconCount_l icon t xs]
    · simp [addIconLastL, h, countTagsL, addIconCount_x icon t x]
end

mutual
theorem addIconCollect_x (icon t a : String) (ha : a ≠ "Icon") : ∀ x : Xml,
    collectAttrsX t a (addIconLastX icon x).1 = collectAttrsX t a x
  | .elem tg attrs c => by
    by_cases h : (addIconLastL icon c).2
    · simp [addIconLastX, h, collectAttrsX, addIconCollect_l icon t a ha c]
    · by_cases h2 : tg = "Shortcut"
      · simp [addIconLastX, h, h2, collectAttrsX, lookup_append_one a "Icon" icon attrs ha]
      · simp [addIconLastX, h, h2, collectAttrsX]

theorem addIconCollect_l (icon t a : String) (ha : a ≠ "Icon") : ∀ xs : XmlList,
    collectAttrsL t a (addIconLastL icon xs).1 = collectAttrsL t a xs
  | .nil => by simp [addIconLastL, collectAttrsL]
  | .cons x xs => by
    by_cases h : (addIconLastL icon xs).2
    · simp [addIconLastL, h, collectAttrsL, addIconCollect_l icon t a ha xs]
    · simp [addIconLastL, h, collectAttrsL, addIconCollect_x icon t a ha x]
end

/-! ## Bridging the walk characterisation to `theWalk` and `run` -/

/-- The logical paths of all files under the install-directory seed. -/
def logicalPaths (cfg : Config) (tree : FsList) : List String :=
  filePathsL (installdirpath cfg) tree

/-- The logical paths of all directories under the install-directory seed. -/
def logicalDirPaths (cfg : Config) (tree : FsList) : List String :=
  dirPathsL (installdirpath cfg) tree

theorem theWalk_refs (cfg : Config) (tree : FsList) (r : Nat) :
    (theWalk cfg tree r).refs = (logicalPaths cfg tree).map (fun p =>
      Xml.elem "ComponentRef"
        [("Id", "Comp_" ++ (uuid5 (effUpgradeCode cfg r) p).hex)] .nil) := by
  unfold theWalk logicalPaths
  exact walkRefs_list _ _ _ _ _ _ tree

theorem theWalk_menu (cfg : Config) (tree : FsList) (r : Nat) :
    (theWalk cfg tree r).menu =
      ((logicalPaths cfg tree).filter (shortcutMatch cfg.shortcut (installdirpath cfg))).length := by
  unfold theWalk logicalPaths
  exact walkMenu_list _ _ _ _ _ _ tree

theorem theWalk_shortcutId (cfg : Config) (tree : FsList) (r : Nat) :
    (theWalk cfg tree r).shortcutId =
      walkShortcutSpec (effUpgradeCode cfg r) cfg.shortcut (installdirpath cfg)
        (logicalPaths cfg tree) := by
  unfold theWalk logicalPaths
  exact walkShortcutId_list _ _ _ _ _ _ tree

theorem sum_map_countTag_zero {α : Type} (t : String) (f : α → Xml) (l : List α)
    (h : ∀ v, countTagsX t (f v) = 0) :
    (l.map (countTagsX t ∘ f)).sum = 0 := by
  induction l with
  | nil => simp
  | cons x xs ih => simp [Function.comp, h, ih]
    
mutual
theorem collectNil_of_countZero_x (t a : String) : ∀ x : Xml,
    countTagsX t x = 0 → collectAttrsX t a x = []
  | .elem tg attrs c => by
    intro h
    simp only [countTagsX] at h
    have htg : ¬ tg = t := by
      intro he
      simp [he] at h
    have hc : countTagsL t c = 0 := by
      by_cases he : tg = t <;> simp [he] at h <;> omega
    simp [collectAttrsX, htg, collectNil_of_countZero_l t a c hc]

theorem collectNil_of_countZero_l (t a : String) : ∀ xs : XmlList,
    countTagsL t xs = 0 → collectAttrsL t a xs = []
  | .nil => by intro h; simp [collectAttrsL]
  | .cons x xs => by
    intro h
    simp only [countTagsL] at h
    have h1 : countTagsX t x = 0 := by omega
    have h2 : countTagsL t xs = 0 := by omega
    simp [collectAttrsL, collectNil_of_countZero_x t a x h1,
      collectNil_of_countZero_l t a xs h2]
end

theorem flatMap_collect_nil {α : Type} (t a : String) (f : α → Xml) (l : List α)
    (h : ∀ v, collectAttrsX t a (f v) = []) :
    (l.map f).flatMap (collectAttrsX t a) = [] := by
  induction l with
  | nil => simp
  | cons x xs ih => simp [h, ih]

theorem flatten_replicate_singleton {α : Type} (n : Nat) (x : α) :
    (List.replicate n [x]).flatten = List.replicate n x := by
  induction n with
  | zero => simp
  | succ n ih => simp [List.replicate_succ, ih]

theorem run_diags (cfg : Config) (tree : FsList) (r : Nat) :
    (run cfg tree r).diags =
      (match cfg.upgradeCode with
       | some _ => []
       | none =>
         [(LogLevel.warning, "no UpgradeCode specified, generating one for you"),
          (LogLevel.warning, "    --upgrade-code=" ++ uuidStr (uuid4 r))]) ++
      (match cfg.version with
       | some _ => []
       | none =>
         [(LogLevel.warning, "no version specified, generating one for you"),
          (LogLevel.warning, "    --version=0.0.1")]) ++
      (match cfg.shortcut, (theWalk cfg tree r).shortcutId with
       | some t, none =>
         [(LogLevel.error, "couldn’t create shortcut " ++ t ++ ": file not found")]
       | _, _ => []) := rfl

theorem refsCountZero (cfg : Config) (tree : FsList) (r : Nat) (t : String)
    (h : t ≠ "ComponentRef") :
    (List.map (countTagsX t) (theWalk cfg tree r).refs).sum = 0 := by
  rw [theWalk_refs, List.map_map]
  exact sum_map_countTag_zero _ _ _ (fun p => by simp [countTagsX, countTagsL, Ne.symm h])

theorem run_countComp (cfg : Config) (tree : FsList) (r : Nat) :
    countTagsX "Component" (run cfg tree r).doc =
      countTagsL "Component" (theWalk cfg tree r).children := by
  have hrefs := refsCountZero cfg tree r "Component" (by simp)
  have hvars : (List.map (countTagsX "Component" ∘ fun v =>
      Xml.elem "WixVariable" [("Id", (parseVar v).1), ("Value", (parseVar v).2)] XmlList.nil)
      cfg.varDefs).sum = 0 :=
    sum_map_countTag_zero _ _ _ (fun v => by simp [countTagsX, countTagsL])
  cases hicon : cfg.icon with
  | none =>
    cases hui : cfg.withUI <;>
      simp [run, hicon, hui, countTagsX, countTagsL, countTagsL_append,
        countTagsL_ofList, List.map_replicate, List.sum_replicate, List.map_map,
        hrefs, hvars]
  | some ic =>
    cases hsid : (theWalk cfg tree r).shortcutId with
    | none =>
      cases hui : cfg.withUI <;>
        simp [run, hicon, hsid, hui, countTagsX, countTagsL, countTagsL_append,
          countTagsL_ofList, List.map_replicate, List.sum_replicate, List.map_map,
          hrefs, hvars]
    | some sid =>
      cases hui : cfg.withUI <;>
        simp [run, hicon, hsid, hui, countTagsX, countTagsL, countTagsL_append,
          countTagsL_ofList, addIconCount_l, List.map_replicate, List.sum_replicate,
          List.map_map, hrefs, hvars]

theorem theWalk_countComp (cfg : Config) (tree : FsList) (r : Nat) :
    countTagsL "Component" (theWalk cfg tree r).children = numFilesL tree := by
  unfold theWalk
  exact walkCountComp_list _ _ _ _ _ _ tree

theorem theWalk_countDir (cfg : Config) (tree : FsList) (r : Nat) :
    countTagsL "Directory" (theWalk cfg tree r).children = numDirsL tree := by
  unfold theWalk
  exact walkCountDir_list _ _ _ _ _ _ tree

theorem theWalk_countShortcut (cfg : Config) (tree : FsList) (r : Nat) :
    countTagsL "Shortcut" (theWalk cfg tree r).children =
      ((logicalPaths cfg tree).filter (shortcutMatch cfg.shortcut (installdirpath cfg))).length := by
  unfold theWalk logicalPaths
  exact walkCountShortcut_list _ _ _ _ _ _ tree

theorem theWalk_countOther (cfg : Config) (tree : FsList) (r : Nat) (t : String)
    (h1 : t ≠ "Directory") (h2 : t ≠ "Component") (h3 : t ≠ "File") (h4 : t ≠ "Shortcut") :
    countTagsL t (theWalk cfg tree r).children = 0 := by
  unfold theWalk
  exact walkCountOther_list _ _ _ _ _ h1 h2 h3 h4 _ _ tree

theorem theWalk_compIds (cfg : Config) (tree : FsList) (r : Nat) :
    collectAttrsL "Component" "Id" (theWalk cfg tree r).children =
      (logicalPaths cfg tree).map (fun p => "Comp_" ++ (uuid5 (effUpgradeCode cfg r) p).hex) := by
  unfold theWalk logicalPaths
  exact walkCompIds_list _ _ _ _ _ _ tree

theorem theWalk_guids (cfg : Config) (tree : FsList) (r : Nat) :
    collectAttrsL "Component" "Guid" (theWalk cfg tree r).children =
      (logicalPaths cfg tree).map (fun p => uuidStr (uuid5 (effUpgradeCode cfg r) p)) := by
  unfold theWalk logicalPaths
  exact walkGuids_list _ _ _ _ _ _ tree

theorem theWalk_fileIds (cfg : Config) (tree : FsList) (r : Nat) :
    collectAttrsL "File" "Id" (theWalk cfg tree r).children =
      (logicalPaths cfg tree).map (fun p => "File_" ++ (uuid5 (effUpgradeCode cfg r) p).hex) := by
  unfold theWalk logicalPaths
  exact walkFileIds_list _ _ _ _ _ _ tree

theorem theWalk_dirIds (cfg : Config) (tree : FsList) (r : Nat) :
    collectAttrsL "Directory" "Id" (theWalk cfg tree r).children =
      (logicalDirPaths cfg tree).map (fun p => "Dir_" ++ (uuid5 (effUpgradeCode cfg r) p).hex) := by
  unfold theWalk logicalDirPaths
  exact walkDirIds_list _ _ _ _ _ _ tree

theorem theWalk_shortcutIds (cfg : Config) (tree : FsList) (r : Nat) :
    collectAttrsL "Shortcut" "Id" (theWalk cfg tree r).children =
      ((logicalPaths cfg tree).filter (shortcutMatch cfg.shortcut (installdirpath cfg))).map
        (fun p => "Shortcut_" ++ (uuid5 (effUpgradeCode cfg r) p).hex) := by
  unfold theWalk logicalPaths
  exact walkShortcutIds_list _ _ _ _ _ _ tree

theorem theWalk_fileShortcuts (cfg : Config) (tree : FsList) (r : Nat) :
    fileShortcutsL (theWalk cfg tree r).children =
      (logicalPaths cfg tree).map (fun p =>
        ("File_" ++ (uuid5 (effUpgradeCode cfg r) p).hex,
         if shortcutMatch cfg.shortcut (installdirpath cfg) p then 1 else 0)) := by
  unfold theWalk logicalPaths
  exact walkFileShortcuts_list _ _ _ _ _ _ tree

theorem sum_map_countTag_one {α : Type} (t : String) (f : α → Xml) (l : List α)
    (h : ∀ v, countTagsX t (f v) = 1) :
    (l.map (countTagsX t ∘ f)).sum = l.length := by
  induction l with
  | nil => simp
  | cons x xs ih => simp [Function.comp, h, ih]; omega

theorem flatMap_replicate_eq {α β : Type} (n : Nat) (x : α) (f : α → List β) :
    (List.replicate n x).flatMap f = (List.replicate n (f x)).flatten := by
  induction n with
  | zero => simp
  | succ n ih => simp [List.replicate_succ, ih]

theorem refsCollectNil (cfg : Config) (tree : FsList) (r : Nat) (t a : String)
    (h : t ≠ "ComponentRef") :
    ((theWalk cfg tree r).refs).flatMap (collectAttrsX t a) = [] := by
  rw [theWalk_refs]
  exact flatMap_collect_nil _ _ _ _ (fun p => by simp [collectAttrsX, collectAttrsL, Ne.symm h])

theorem flatten_replicate_nil {α : Type} (n : Nat) :
    (List.replicate n ([] : List α)).flatten = [] := by
  induction n with
  | zero => simp
  | succ n ih => simp [List.replicate_succ, ih]

theorem flatMap_map_singleton {α β γ : Type} (f : α → β) (g : β → List γ) (h : α → γ)
    (l : List α) (hp : ∀ v, g (f v) = [h v]) : (l.map f).flatMap g = l.map h := by
  induction l with
  | nil => simp
  | cons x xs ih => simp [hp, ih]

theorem addIconCollectId (icon t : String) (xs : XmlList) :
    collectAttrsL t "Id" (addIconLastL icon xs).1 = collectAttrsL t "Id" xs :=
  addIconCollect_l icon t "Id" (by decide) xs

theorem addIconCollectGuid (icon t : String) (xs : XmlList) :
    collectAttrsL t "Guid" (addIconLastL icon xs).1 = collectAttrsL t "Guid" xs :=
  addIconCollect_l icon t "Guid" (by decide) xs

theorem addIconCollectValue (icon t : String) (xs : XmlList) :
    collectAttrsL t "Value" (addIconLastL icon xs).1 = collectAttrsL t "Value" xs :=
  addIconCollect_l icon t "Value" (by decide) xs

theorem run_countFeature (cfg : Config) (tree : FsList) (r : Nat) :
    countTagsX "Feature" (run cfg tree r).doc = 1 := by
  have hrefs := refsCountZero cfg tree r "Feature" (by decide)
  have hwalk := theWalk_countOther cfg tree r "Feature"
    (by decide) (by decide) (by decide) (by decide)
  have hvars : (List.map (countTagsX "Feature" ∘ fun v =>
      Xml.elem "WixVariable" [("Id", (parseVar v).1), ("Value", (parseVar v).2)] XmlList.nil)
      cfg.varDefs).sum = 0 :=
    sum_map_countTag_zero _ _ _ (fun v => by simp [countTagsX, countTagsL])
  cases hicon : cfg.icon with
  | none =>
    cases hui : cfg.withUI <;>
      simp [run, hicon, hui, countTagsX, countTagsL, countTagsL_append,
        countTagsL_ofList, List.map_replicate, List.sum_replicate, List.map_map,
        hrefs, hvars, hwalk]
  | some ic =>
    cases hsid : (theWalk cfg tree r).shortcutId with
    | none =>
      cases hui : cfg.withUI <;>
        simp [run, hicon, hsid, hui, countTagsX, countTagsL, countTagsL_append,
          countTagsL_ofList, List.map_replicate, List.sum_replicate, List.map_map,
          hrefs, hvars, hwalk]
    | some sid =>
      cases hui : cfg.withUI <;>
        simp [run, hicon, hsid, hui, countTagsX, countTagsL, countTagsL_append,
          countTagsL_ofList, addIconCount_l, List.map_replicate, List.sum_replicate,
          List.map_map, hrefs, hvars, hwalk]

theorem run_countRefs (cfg : Config) (tree : FsList) (r : Nat) :
    countTagsX "ComponentRef" (run cfg tree r).doc = (logicalPaths cfg tree).length := by
  have hrefs : (List.map (countTagsX "ComponentRef") (theWalk cfg tree r).refs).sum =
      (logicalPaths cfg tree).length := by
    rw [theWalk_refs, List.map_map]
    exact sum_map_countTag_one _ _ _ (fun p => by simp [countTagsX, countTagsL])
  have hwalk := theWalk_countOther cfg tree r "ComponentRef"
    (by decide) (by decide) (by decide) (by decide)
  have hvars : (List.map (countTagsX "ComponentRef" ∘ fun v =>
      Xml.elem "WixVariable" [("Id", (parseVar v).1), ("Value", (parseVar v).2)] XmlList.nil)
      cfg.varDefs).sum = 0 :=
    sum_map_countTag_zero _ _ _ (fun v => by simp [countTagsX, countTagsL])
  cases hicon : cfg.icon with
  | none =>
    cases hui : cfg.withUI <;>
      simp [run, hicon, hui, countTagsX, countTagsL, countTagsL_append,
        countTagsL_ofList, List.map_replicate, List.sum_replicate, List.map_map,
        hrefs, hvars, hwalk]
  | some ic =>
    cases hsid : (theWalk cfg tree r).shortcutId with
    | none =>
      cases hui : cfg.withUI <;>
        simp [run, hicon, hsid, hui, countTagsX, countTagsL, countTagsL_append,
          countTagsL_ofList, List.map_replicate, List.sum_replicate, List.map_map,
          hrefs, hvars, hwalk]
    | some sid =>
      cases hui : cfg.withUI <;>
        simp [run, hicon, hsid, hui, countTagsX, countTagsL, countTagsL_append,
          countTagsL_ofList, addIconCount_l, List.map_replicate, List.sum_replicate,
          List.map_map, hrefs, hvars, hwalk]

theorem run_countShortcut (cfg : Config) (tree : FsList) (r : Nat) :
    countTagsX "Shortcut" (run cfg tree r).doc =
      ((logicalPaths cfg tree).filter
        (shortcutMatch cfg.shortcut (installdirpath cfg))).length := by
  have hrefs := refsCountZero cfg tree r "Shortcut" (by decide)
  have hwalk := theWalk_countShortcut cfg tree r
  have hvars : (List.map (countTagsX "Shortcut" ∘ fun v =>
      Xml.elem "WixVariable" [("Id", (parseVar v).1), ("Value", (parseVar v).2)] XmlList.nil)
      cfg.varDefs).sum = 0 :=
    sum_map_countTag_zero _ _ _ (fun v => by simp [countTagsX, countTagsL])
  cases hicon : cfg.icon with
  | none =>
    cases hui : cfg.withUI <;>
      simp [run, hicon, hui, countTagsX, countTagsL, countTagsL_append,
        countTagsL_ofList, List.map_replicate, List.sum_replicate, List.map_map,
        hrefs, hvars, hwalk]
  | some ic =>
    cases hsid : (theWalk cfg tree r).shortcutId with
    | none =>
      cases hui : cfg.withUI <;>
        simp [run, hicon, hsid, hui, countTagsX, countTagsL, countTagsL_append,
          countTagsL_ofList, List.map_replicate, List.sum_replicate, List.map_map,
          hrefs, hvars, hwalk]
    | some sid =>
      cases hui : cfg.withUI <;>
        simp [run, hicon, hsid, hui, countTagsX, countTagsL, countTagsL_append,
          countTagsL_ofList, addIconCount_l, List.map_replicate, List.sum_replicate,
          List.map_map, hrefs, hvars, hwalk]

theorem run_compIds (cfg : Config) (tree : FsList) (r : Nat) :
    collectAttrsX "Component" "Id" (run cfg tree r).doc =
      (logicalPaths cfg tree).map (fun p =>
        "Comp_" ++ (uuid5 (effUpgradeCode cfg r) p).hex) := by
  have hrefs := refsCollectNil cfg tree r "Component" "Id" (by decide)
  have hwalk := theWalk_compIds cfg tree r
  have hvars : (cfg.varDefs.map (fun v =>
      Xml.elem "WixVariable" [("Id", (parseVar v).1), ("Value", (parseVar v).2)] XmlList.nil)).flatMap
      (collectAttrsX "Component" "Id") = [] :=
    flatMap_collect_nil _ _ _ _ (fun v => by simp [collectAttrsX, collectAttrsL])
  cases hicon : cfg.icon with
  | none =>
    cases hui : cfg.withUI <;>
      simp [run, hicon, hui, collectAttrsX, collectAttrsL, collectAttrsL_append,
        collectAttrsL_ofList, flatMap_replicate_eq, flatten_replicate_nil,
        hrefs, hvars, hwalk]
  | some ic =>
    cases hsid : (theWalk cfg tree r).shortcutId with
    | none =>
      cases hui : cfg.withUI <;>
        simp [run, hicon, hsid, hui, collectAttrsX, collectAttrsL, collectAttrsL_append,
          collectAttrsL_ofList, flatMap_replicate_eq, flatten_replicate_nil,
          hrefs, hvars, hwalk]
    | some sid =>
      cases hui : cfg.withUI <;>
        simp [run, hicon, hsid, hui, collectAttrsX, collectAttrsL, collectAttrsL_append,
          collectAttrsL_ofList, flatMap_replicate_eq, flatten_replicate_nil,
          addIconCollectId, hrefs, hvars, hwalk]

theorem run_refIds (cfg : Config) (tree : FsList) (r : Nat) :
    collectAttrsX "ComponentRef" "Id" (run cfg tree r).doc =
      (logicalPaths cfg tree).map (fun p =>
        "Comp_" ++ (uuid5 (effUpgradeCode cfg r) p).hex) := by
  have hrefs : ((theWalk cfg tree r).refs).flatMap (collectAttrsX "ComponentRef" "Id") =
      (logicalPaths cfg tree).map (fun p =>
        "Comp_" ++ (uuid5 (effUpgradeCode cfg r) p).hex) := by
    rw [theWalk_refs]
    exact flatMap_map_singleton _ _ _ _
      (fun p => by simp [collectAttrsX, collectAttrsL, List.lookup])
  have hwalk : collectAttrsL "ComponentRef" "Id" (theWalk cfg tree r).children = [] :=
    collectNil_of_countZero_l _ _ _ (theWalk_countOther cfg tree r "ComponentRef"
      (by decide) (by decide) (by decide) (by decide))
  have hvars : (cfg.varDefs.map (fun v =>
      Xml.elem "WixVariable" [("Id", (parseVar v).1), ("Value", (parseVar v).2)] XmlList.nil)).flatMap
      (collectAttrsX "ComponentRef" "Id") = [] :=
    flatMap_collect_nil _ _ _ _ (fun v => by simp [collectAttrsX, collectAttrsL])
  cases hicon : cfg.icon with
  | none =>
    cases hui : cfg.withUI <;>
      simp [run, hicon, hui, collectAttrsX, collectAttrsL, collectAttrsL_append,
        collectAttrsL_ofList, flatMap_replicate_eq, flatten_replicate_nil,
        hrefs, hvars, hwalk]
  | some ic =>
    cases hsid : (theWalk cfg tree r).shortcutId with
    | none =>
      cases hui : cfg.withUI <;>
        simp [run, hicon, hsid, hui, collectAttrsX, collectAttrsL, collectAttrsL_append,
          collectAttrsL_ofList, flatMap_replicate_eq, flatten_replicate_nil,
          hrefs, hvars, hwalk]
    | some sid =>
      cases hui : cfg.withUI <;>
        simp [run, hicon, hsid, hui, collectAttrsX, collectAttrsL, collectAttrsL_append,
          collectAttrsL_ofList, flatMap_replicate_eq, flatten_replicate_nil,
          addIconCollectId, hrefs, hvars, hwalk]

theorem run_fileIds (cfg : Config) (tree : FsList) (r : Nat) :
    collectAttrsX "File" "Id" (run cfg tree r).doc =
      (logicalPaths cfg tree).map (fun p =>
        "File_" ++ (uuid5 (effUpgradeCode cfg r) p).hex) := by
  have hrefs := refsCollectNil cfg tree r "File" "Id" (by decide)
  have hwalk := theWalk_fileIds cfg tree r
  have hvars : (cfg.varDefs.map (fun v =>
      Xml.elem "WixVariable" [("Id", (parseVar v).1), ("Value", (parseVar v).2)] XmlList.nil)).flatMap
      (collectAttrsX "File" "Id") = [] :=
    flatMap_collect_nil _ _ _ _ (fun v => by simp [collectAttrsX, collectAttrsL])
  cases hicon : cfg.icon with
  | none =>
    cases hui : cfg.withUI <;>
      simp [run, hicon, hui, collectAttrsX, collectAttrsL, collectAttrsL_append,
        collectAttrsL_ofList, flatMap_replicate_eq, flatten_replicate_nil,
        hrefs, hvars, hwalk]
  | some ic =>
    cases hsid : (theWalk cfg tree r).shortcutId with
    | none =>
      cases hui : cfg.withUI <;>
        simp [run, hicon, hsid, hui, collectAttrsX, collectAttrsL, collectAttrsL_append,
          collectAttrsL_ofList, flatMap_replicate_eq, flatten_replicate_nil,
          hrefs, hvars, hwalk]
    | some sid =>
      cases hui : cfg.withUI <;>
        simp [run, hicon, hsid, hui, collectAttrsX, collectAttrsL, collectAttrsL_append,
          collectAttrsL_ofList, flatMap_replicate_eq, flatten_replicate_nil,
          addIconCollectId, hrefs, hvars, hwalk]

theorem run_guids (cfg : Config) (tree : FsList) (r : Nat) :
    collectAttrsX "Component" "Guid" (run cfg tree r).doc =
      (logicalPaths cfg tree).map (fun p => uuidStr (uuid5 (effUpgradeCode cfg r) p)) := by
  have hrefs := refsCollectNil cfg tree r "Component" "Guid" (by decide)
  have hwalk := theWalk_guids cfg tree r
  have hvars : (cfg.varDefs.map (fun v =>
      Xml.elem "WixVariable" [("Id", (parseVar v).1), ("Value", (parseVar v).2)] XmlList.nil)).flatMap
      (collectAttrsX "Component" "Guid") = [] :=
    flatMap_collect_nil _ _ _ _ (fun v => by simp [collectAttrsX, collectAttrsL])
  cases hicon : cfg.icon with
  | none =>
    cases hui : cfg.withUI <;>
      simp [run, hicon, hui, collectAttrsX, collectAttrsL, collectAttrsL_append,
        collectAttrsL_ofList, flatMap_replicate_eq, flatten_replicate_nil,
        hrefs, hvars, hwalk]
  | some ic =>
    cases hsid : (theWalk cfg tree r).shortcutId with
    | none =>
      cases hui : cfg.withUI <;>
        simp [run, hicon, hsid, hui, collectAttrsX, collectAttrsL, collectAttrsL_append,
          collectAttrsL_ofList, flatMap_replicate_eq, flatten_replicate_nil,
          hrefs, hvars, hwalk]
    | some sid =>
      cases hui : cfg.withUI <;>
        simp [run, hicon, hsid, hui, collectAttrsX, collectAttrsL, collectAttrsL_append,
          collectAttrsL_ofList, flatMap_replicate_eq, flatten_replicate_nil,
          addIconCollectGuid, hrefs, hvars, hwalk]

theorem run_dirIds (cfg : Config) (tree : FsList) (r : Nat) :
    collectAttrsX "Directory" "Id" (run cfg tree r).doc =
      "TARGETDIR" :: progfilesId cfg :: "INSTALLDIR" ::
        ((logicalDirPaths cfg tree).map (fun p =>
          "Dir_" ++ (uuid5 (effUpgradeCode cfg r) p).hex) ++
         List.replicate (theWalk cfg tree r).menu "ProgramMenuFolder") := by
  have hrefs := refsCollectNil cfg tree r "Directory" "Id" (by decide)
  have hwalk := theWalk_dirIds cfg tree r
  have hvars : (cfg.varDefs.map (fun v =>
      Xml.elem "WixVariable" [("Id", (parseVar v).1), ("Value", (parseVar v).2)] XmlList.nil)).flatMap
      (collectAttrsX "Directory" "Id") = [] :=
    flatMap_collect_nil _ _ _ _ (fun v => by simp [collectAttrsX, collectAttrsL])
  cases hicon : cfg.icon with
  | none =>
    cases hui : cfg.withUI <;>
      simp [run, hicon, hui, collectAttrsX, collectAttrsL, collectAttrsL_append,
        collectAttrsL_ofList, flatMap_replicate_eq, flatten_replicate_singleton,
        List.lookup, hrefs, hvars, hwalk]
  | some ic =>
    cases hsid : (theWalk cfg tree r).shortcutId with
    | none =>
      cases hui : cfg.withUI <;>
        simp [run, hicon, hsid, hui, collectAttrsX, collectAttrsL, collectAttrsL_append,
          collectAttrsL_ofList, flatMap_replicate_eq, flatten_replicate_singleton,
          List.lookup, hrefs, hvars, hwalk]
    | some sid =>
      cases hui : cfg.withUI <;>
        simp [run, hicon, hsid, hui, collectAttrsX, collectAttrsL, collectAttrsL_append,
          collectAttrsL_ofList, flatMap_replicate_eq, flatten_replicate_singleton,
          List.lookup, addIconCollectId, hrefs, hvars, hwalk]

theorem run_varIds (cfg : Config) (tree : FsList) (r : Nat) :
    collectAttrsX "WixVariable" "Id" (run cfg tree r).doc =
      cfg.varDefs.map (fun v => (parseVar v).1) := by
  have hrefs := refsCollectNil cfg tree r "WixVariable" "Id" (by decide)
  have hwalk : collectAttrsL "WixVariable" "Id" (theWalk cfg tree r).children = [] :=
    collectNil_of_countZero_l _ _ _ (theWalk_countOther cfg tree r "WixVariable"
      (by decide) (by decide) (by decide) (by decide))
  have hvars : (cfg.varDefs.map (fun v =>
      Xml.elem "WixVariable" [("Id", (parseVar v).1), ("Value", (parseVar v).2)] XmlList.nil)).flatMap
      (collectAttrsX "WixVariable" "Id") = cfg.varDefs.map (fun v => (parseVar v).1) :=
    flatMap_map_singleton _ _ _ _
      (fun v => by simp [collectAttrsX, collectAttrsL, List.lookup])
  cases hicon : cfg.icon with
  | none =>
    cases hui : cfg.withUI <;>
      simp [run, hicon, hui, collectAttrsX, collectAttrsL, collectAttrsL_append,
        collectAttrsL_ofList, flatMap_replicate_eq, flatten_replicate_nil,
        hrefs, hvars, hwalk]
  | some ic =>
    cases hsid : (theWalk cfg tree r).shortcutId with
    | none =>
      cases hui : cfg.withUI <;>
        simp [run, hicon, hsid, hui, collectAttrsX, collectAttrsL, collectAttrsL_append,
          collectAttrsL_ofList, flatMap_replicate_eq, flatten_replicate_nil,
          hrefs, hvars, hwalk]
    | some sid =>
      cases hui : cfg.withUI <;>
        simp [run, hicon, hsid, hui, collectAttrsX, collectAttrsL, collectAttrsL_append,
          collectAttrsL_ofList, flatMap_replicate_eq, flatten_replicate_nil,
          addIconCollectId, hrefs, hvars, hwalk]

theorem run_varValues (cfg : Config) (tree : FsList) (r : Nat) :
    collectAttrsX "WixVariable" "Value" (run cfg tree r).doc =
      cfg.varDefs.map (fun v => (parseVar v).2) := by
  have hrefs := refsCollectNil cfg tree r "WixVariable" "Value" (by decide)
  have hwalk : collectAttrsL "WixVariable" "Value" (theWalk cfg tree r).children = [] :=
    collectNil_of_countZero_l _ _ _ (theWalk_countOther cfg tree r "WixVariable"
      (by decide) (by decide) (by decide) (by decide))
  have hvars : (cfg.varDefs.map (fun v =>
      Xml.elem "WixVariable" [("Id", (parseVar v).1), ("Value", (parseVar v).2)] XmlList.nil)).flatMap
      (collectAttrsX "WixVariable" "Value") = cfg.varDefs.map (fun v => (parseVar v).2) :=
    flatMap_map_singleton _ _ _ _
      (fun v => by simp [collectAttrsX, collectAttrsL, List.lookup])
  cases hicon : cfg.icon with
  | none =>
    cases hui : cfg.withUI <;>
      simp [run, hicon, hui, collectAttrsX, collectAttrsL, collectAttrsL_append,
        collectAttrsL_ofList, flatMap_replicate_eq, flatten_replicate_nil,
        hrefs, hvars, hwalk]
  | some ic =>
    cases hsid : (theWalk cfg tree r).shortcutId with
    | none =>
      cases hui : cfg.withUI <;>
        simp [run, hicon, hsid, hui, collectAttrsX, collectAttrsL, collectAttrsL_append,
          collectAttrsL_ofList, flatMap_replicate_eq, flatten_replicate_nil,
          hrefs, hvars, hwalk]
    | some sid =>
      cases hui : cfg.withUI <;>
        simp [run, hicon, hsid, hui, collectAttrsX, collectAttrsL, collectAttrsL_append,
          collectAttrsL_ofList, flatMap_replicate_eq, flatten_replicate_nil,
          addIconCollectValue, hrefs, hvars, hwalk]

theorem addIconCollectVersion (icon t : String) (xs : XmlList) :
    collectAttrsL t "Version" (addIconLastL icon xs).1 = collectAttrsL t "Version" xs :=
  addIconCollect_l icon t "Version" (by decide) xs

theorem addIconCollectUpgrade (icon t : String) (xs : XmlList) :
    collectAttrsL t "UpgradeCode" (addIconLastL icon xs).1 =
      collectAttrsL t "UpgradeCode" xs :=
  addIconCollect_l icon t "UpgradeCode" (by decide) xs

theorem run_productVersion (cfg : Config) (tree : FsList) (r : Nat) :
    collectAttrsX "Product" "Version" (run cfg tree r).doc = [effVersion cfg] := by
  have hrefs := refsCollectNil cfg tree r "Product" "Version" (by decide)
  have hwalk : collectAttrsL "Product" "Version" (theWalk cfg tree r).children = [] :=
    collectNil_of_countZero_l _ _ _ (theWalk_countOther cfg tree r "Product"
      (by decide) (by decide) (by decide) (by decide))
  have hvars : (cfg.varDefs.map (fun v =>
      Xml.elem "WixVariable" [("Id", (parseVar v).1), ("Value", (parseVar v).2)] XmlList.nil)).flatMap
      (collectAttrsX "Product" "Version") = [] :=
    flatMap_collect_nil _ _ _ _ (fun v => by simp [collectAttrsX, collectAttrsL])
  cases hicon : cfg.icon with
  | none =>
    cases hui : cfg.withUI <;>
      simp [run, hicon, hui, collectAttrsX, collectAttrsL, collectAttrsL_append,
        collectAttrsL_ofList, flatMap_replicate_eq, flatten_replicate_nil,
        List.lookup, hrefs, hvars, hwalk]
  | some ic =>
    cases hsid : (theWalk cfg tree r).shortcutId with
    | none =>
      cases hui : cfg.withUI <;>
        simp [run, hicon, hsid, hui, collectAttrsX, collectAttrsL, collectAttrsL_append,
          collectAttrsL_ofList, flatMap_replicate_eq, flatten_replicate_nil,
          List.lookup, hrefs, hvars, hwalk]
    | some sid =>
      cases hui : cfg.withUI <;>
        simp [run, hicon, hsid, hui, collectAttrsX, collectAttrsL, collectAttrsL_append,
          collectAttrsL_ofList, flatMap_replicate_eq, flatten_replicate_nil,
          List.lookup, addIconCollectVersion, hrefs, hvars, hwalk]

theorem run_productUpgradeCode (cfg : Config) (tree : FsList) (r : Nat) :
    collectAttrsX "Product" "UpgradeCode" (run cfg tree r).doc =
      [uuidStr (effUpgradeCode cfg r)] := by
  have hrefs := refsCollectNil cfg tree r "Product" "UpgradeCode" (by decide)
  have hwalk : collectAttrsL "Product" "UpgradeCode" (theWalk cfg tree r).children = [] :=
    collectNil_of_countZero_l _ _ _ (theWalk_countOther cfg tree r "Product"
      (by decide) (by decide) (by decide) (by decide))
  have hvars : (cfg.varDefs.map (fun v =>
      Xml.elem "WixVariable" [("Id", (parseVar v).1), ("Value", (parseVar v).2)] XmlList.nil)).flatMap
      (collectAttrsX "Product" "UpgradeCode") = [] :=
    flatMap_collect_nil _ _ _ _ (fun v => by simp [collectAttrsX, collectAttrsL])
  cases hicon : cfg.icon with
  | none =>
    cases hui : cfg.withUI <;>
      simp [run, hicon, hui, collectAttrsX, collectAttrsL, collectAttrsL_append,
        collectAttrsL_ofList, flatMap_replicate_eq, flatten_replicate_nil,
        List.lookup, hrefs, hvars, hwalk]
  | some ic =>
    cases hsid : (theWalk cfg tree r).shortcutId with
    | none =>
      cases hui : cfg.withUI <;>
        simp [run, hicon, hsid, hui, collectAttrsX, collectAttrsL, collectAttrsL_append,
          collectAttrsL_ofList, flatMap_replicate_eq, flatten_replicate_nil,
          List.lookup, hrefs, hvars, hwalk]
    | some sid =>
      cases hui : cfg.withUI <;>
        simp [run, hicon, hsid, hui, collectAttrsX, collectAttrsL, collectAttrsL_append,
          collectAttrsL_ofList, flatMap_replicate_eq, flatten_replicate_nil,
          List.lookup, addIconCollectUpgrade, hrefs, hvars, hwalk]

theorem run_iconIds (cfg : Config) (tree : FsList) (r : Nat) (ip : String)
    (hicon : cfg.icon = some ip) :
    collectAttrsX "Icon" "Id" (run cfg tree r).doc =
      [match (theWalk cfg tree r).shortcutId with
       | some sid =>
         "Icon_" ++ pySplitHead sid '_' ++ pyUpper (splitext (cfg.shortcut.getD "")).2
       | none => "app.ico"] := by
  have hrefs := refsCollectNil cfg tree r "Icon" "Id" (by decide)
  have hwalk : collectAttrsL "Icon" "Id" (theWalk cfg tree r).children = [] :=
    collectNil_of_countZero_l _ _ _ (theWalk_countOther cfg tree r "Icon"
      (by decide) (by decide) (by decide) (by decide))
  have hvars : (cfg.varDefs.map (fun v =>
      Xml.elem "WixVariable" [("Id", (parseVar v).1), ("Value", (parseVar v).2)] XmlList.nil)).flatMap
      (collectAttrsX "Icon" "Id") = [] :=
    flatMap_collect_nil _ _ _ _ (fun v => by simp [collectAttrsX, collectAttrsL])
  cases hsid : (theWalk cfg tree r).shortcutId with
  | none =>
    cases hui : cfg.withUI <;>
      simp [run, hicon, hsid, hui, collectAttrsX, collectAttrsL, collectAttrsL_append,
        collectAttrsL_ofList, flatMap_replicate_eq, flatten_replicate_nil,
        List.lookup, hrefs, hvars, hwalk]
  | some sid =>
    cases hui : cfg.withUI <;>
      simp [run, hicon, hsid, hui, collectAttrsX, collectAttrsL, collectAttrsL_append,
        collectAttrsL_ofList, flatMap_replicate_eq, flatten_replicate_nil,
        List.lookup, addIconCollectId, hrefs, hvars, hwalk]

theorem run_rootTag (cfg : Config) (tree : FsList) (r : Nat) :
    countTagsX "Wix" (run cfg tree r).doc = 1 := by
  have hrefs := refsCountZero cfg tree r "Wix" (by decide)
  have hwalk := theWalk_countOther cfg tree r "Wix"
    (by decide) (by decide) (by decide) (by decide)
  have hvars : (List.map (countTagsX "Wix" ∘ fun v =>
      Xml.elem "WixVariable" [("Id", (parseVar v).1), ("Value", (parseVar v).2)] XmlList.nil)
      cfg.varDefs).sum = 0 :=
    sum_map_countTag_zero _ _ _ (fun v => by simp [countTagsX, countTagsL])
  cases hicon : cfg.icon with
  | none =>
    cases hui : cfg.withUI <;>
      simp [run, hicon, hui, countTagsX, countTagsL, countTagsL_append,
        countTagsL_ofList, List.map_replicate, List.sum_replicate, List.map_map,
        hrefs, hvars, hwalk]
  | some ic =>
    cases hsid : (theWalk cfg tree r).shortcutId with
    | none =>
      cases hui : cfg.withUI <;>
        simp [run, hicon, hsid, hui, countTagsX, countTagsL, countTagsL_append,
          countTagsL_ofList, List.map_replicate, List.sum_replicate, List.map_map,
          hrefs, hvars, hwalk]
    | some sid =>
      cases hui : cfg.withUI <;>
        simp [run, hicon, hsid, hui, countTagsX, countTagsL, countTagsL_append,
          countTagsL_ofList, addIconCount_l, List.map_replicate, List.sum_replicate,
          List.map_map, hrefs, hvars, hwalk]

/-! ## Remaining helper lemmas for the claims -/

theorem takeWhile_all {α : Type} (p : α → Bool) : ∀ l : List α,
    (∀ x ∈ l, p x = true) → l.takeWhile p = l
  | [], _ => rfl
  | x :: xs, h => by
    have hx := h x (by simp)
    simp [List.takeWhile_cons, hx, takeWhile_all p xs (fun y hy => h y (by simp [hy]))]

theorem takeWhile_append_stop {α : Type} (p : α → Bool) (x : α) (l2 : List α)
    (hx : p x = false) : ∀ l1 : List α,
    (∀ y ∈ l1, p y = true) → (l1 ++ x :: l2).takeWhile p = l1
  | [], _ => by simp [List.takeWhile_cons, hx]
  | y :: ys, h => by
    have hy := h y (by simp)
    simp [List.takeWhile_cons, hy,
      takeWhile_append_stop p x l2 hx ys (fun z hz => h z (by simp [hz]))]

theorem length_le_one_of_nodup_all_eq {α : Type} (a : α) :
    ∀ l : List α, l.Nodup → (∀ x ∈ l, x = a) → l.length ≤ 1
  | [], _, _ => by simp
  | [x], _, _ => by simp
  | x :: y :: rest, hn, he => by
    have hx := he x (by simp)
    have hy := he y (by simp)
    have hmem : x ∈ y :: rest := by simp [hx, hy.symm]
    exact absurd hmem (List.nodup_cons.mp hn).1

/-! ## The claims -/

/-- C1: identifier derivation is deterministic: `derive(role, U, P)` is a pure
function of the role tag, the upgrade-code namespace and the logical path —
repeated calls agree, every identifier the walk assigns is exactly
`derive(role, U, P)` of the entry's logical path irrespective of the rest of
the configuration and tree, and permuting the traversal (any two trees with
the same logical paths up to order, under any shortcut/product/source
configuration) permutes the identifiers correspondingly. -/
theorem claim_C1_derive_deterministic :
    (∀ (role : String) (uc : UUID) (p : String), derive role uc p = derive role uc p) ∧
    (∀ (uc : UUID) (t? : Option String) (pn ip sp dp : String) (l : FsList),
      collectAttrsL "Component" "Id" (walkdir uc t? pn ip sp dp l).children =
        (filePathsL dp l).map (fun p => derive "Comp_" uc p) ∧
      collectAttrsL "File" "Id" (walkdir uc t? pn ip sp dp l).children =
        (filePathsL dp l).map (fun p => derive "File_" uc p) ∧
      collectAttrsL "Directory" "Id" (walkdir uc t? pn ip sp dp l).children =
        (dirPathsL dp l).map (fun p => derive "Dir_" uc p)) ∧
    (∀ (uc : UUID) (t? t2? : Option String) (pn pn2 ip ip2 sp sp2 dp : String)
       (l1 l2 : FsList),
      (filePathsL dp l1).Perm (filePathsL dp l2) →
      (collectAttrsL "Component" "Id" (walkdir uc t? pn ip sp dp l1).children).Perm
        (collectAttrsL "Component" "Id" (walkdir uc t2? pn2 ip2 sp2 dp l2).children)) := by
  refine ⟨fun _ _ _ => rfl, ?_, ?_⟩
  · intro uc t? pn ip sp dp l
    refine ⟨?_, ?_, ?_⟩ <;> simp only [derive]
    · exact walkCompIds_list uc t? pn ip sp dp l
    · exact walkFileIds_list uc t? pn ip sp dp l
    · exact walkDirIds_list uc t? pn ip sp dp l
  · intro uc t? t2? pn pn2 ip ip2 sp sp2 dp l1 l2 h
    rw [walkCompIds_list, walkCompIds_list]
    exact h.map _

/-- Witness for C1 at a concrete pair of trees that list the same two files
in opposite sibling order. -/
theorem claim_C1_derive_deterministic_witness :
    (filePathsL "P" (FsList.cons (FsEntry.file "a")
      (FsList.cons (FsEntry.file "b") FsList.nil))).Perm
      (filePathsL "P" (FsList.cons (FsEntry.file "b")
        (FsList.cons (FsEntry.file "a") FsList.nil))) ∧
    (collectAttrsL "Component" "Id"
      (walkdir ⟨0⟩ none "n" "i" "s" "P" (FsList.cons (FsEntry.file "a")
        (FsList.cons (FsEntry.file "b") FsList.nil))).children).Perm
      (collectAttrsL "Component" "Id"
        (walkdir ⟨0⟩ none "n" "i" "s" "P" (FsList.cons (FsEntry.file "b")
          (FsList.cons (FsEntry.file "a") FsList.nil))).children) :=
  ⟨by decide,
   claim_C1_derive_deterministic.2.2 ⟨0⟩ none none "n" "n" "i" "i" "s" "s" "P"
     (FsList.cons (FsEntry.file "a") (FsList.cons (FsEntry.file "b") FsList.nil))
     (FsList.cons (FsEntry.file "b") (FsList.cons (FsEntry.file "a") FsList.nil))
     (by decide)⟩

/-- C2: for every source tree with N files, the generated document contains
exactly N `Component` elements, exactly one `Feature` element and exactly N
`ComponentRef` elements, and the `ComponentRef` identifiers coincide
position by position with the `Component` identifiers, so each component
entry is referenced exactly once. -/
theorem claim_C2_components_and_refs (cfg : Config) (tree : FsList) (r : Nat) :
    countTagsX "Component" (run cfg tree r).doc = numFilesL tree ∧
    countTagsX "Feature" (run cfg tree r).doc = 1 ∧
    countTagsX "ComponentRef" (run cfg tree r).doc = numFilesL tree ∧
    collectAttrsX "ComponentRef" "Id" (run cfg tree r).doc =
      collectAttrsX "Component" "Id" (run cfg tree r).doc ∧
    (collectAttrsX "Component" "Id" (run cfg tree r).doc).length = numFilesL tree := by
  refine ⟨?_, run_countFeature cfg tree r, ?_, ?_, ?_⟩
  · rw [run_countComp, theWalk_countComp]
  · rw [run_countRefs]
    exact filePathsLength_list _ tree
  · rw [run_refIds, run_compIds]
  · rw [run_compIds, List.length_map]
    exact filePathsLength_list _ tree

/-- C8: a source tree consisting of exactly one empty subdirectory yields
exactly one `Directory` element beneath the fixed install-directory chain
and zero `Component` elements anywhere in the document; in general the
walker emits one `Directory` element per filesystem directory. -/
theorem claim_C8_empty_directories (cfg : Config) (r : Nat) (dname : String)
    (tree : FsList) :
    countTagsL "Directory"
      (theWalk cfg (FsList.cons (FsEntry.dir dname FsList.nil) FsList.nil) r).children = 1 ∧
    countTagsX "Component"
      (run cfg (FsList.cons (FsEntry.dir dname FsList.nil) FsList.nil) r).doc = 0 ∧
    countTagsL "Directory" (theWalk cfg tree r).children = numDirsL tree := by
  refine ⟨?_, ?_, theWalk_countDir cfg tree r⟩
  · rw [theWalk_countDir]
    simp [numDirsL, numDirsE]
  · rw [run_countComp, theWalk_countComp]
    simp [numFilesL, numFilesE]

/-- C10: every walked entry's identifiers are derived from the single value
`uuid5(upgradeCode, logicalPath)`: the `Directory`, `Component`, `File` and
`Shortcut` identifiers are the same 32-character hexadecimal token under
their role prefixes, and the component `Guid` attribute is the canonical
hyphenated string form of that same UUID. -/
theorem claim_C10_single_uuid_per_entry (uc : UUID) (t? : Option String)
    (pn ip sp dp : String) (l : FsList) :
    collectAttrsL "Component" "Id" (walkdir uc t? pn ip sp dp l).children =
      (filePathsL dp l).map (fun p => "Comp_" ++ (uuid5 uc p).hex) ∧
    collectAttrsL "File" "Id" (walkdir uc t? pn ip sp dp l).children =
      (filePathsL dp l).map (fun p => "File_" ++ (uuid5 uc p).hex) ∧
    collectAttrsL "Directory" "Id" (walkdir uc t? pn ip sp dp l).children =
      (dirPathsL dp l).map (fun p => "Dir_" ++ (uuid5 uc p).hex) ∧
    collectAttrsL "Shortcut" "Id" (walkdir uc t? pn ip sp dp l).children =
      ((filePathsL dp l).filter (shortcutMatch t? ip)).map
        (fun p => "Shortcut_" ++ (uuid5 uc p).hex) ∧
    collectAttrsL "Component" "Guid" (walkdir uc t? pn ip sp dp l).children =
      (filePathsL dp l).map (fun p => uuidStr (uuid5 uc p)) ∧
    (∀ u : UUID, (uuidStr u).data = canonicalHyphenated u.hex.data) :=
  ⟨walkCompIds_list uc t? pn ip sp dp l,
   walkFileIds_list uc t? pn ip sp dp l,
   walkDirIds_list uc t? pn ip sp dp l,
   walkShortcutIds_list uc t? pn ip sp dp l,
   walkGuids_list uc t? pn ip sp dp l,
   fun _ => rfl⟩

/-- C9: variable definitions are tolerated even without an `=` separator:
the document carries one `WixVariable` element per `-d` argument whose name
and value come from `parseVar`, and `parseVar` maps a string without `=` to
the whole string with an empty value, and a string `a=b` (no `=` in `a`) to
the name `a` and the verbatim value `b`. -/
theorem claim_C9_variable_parsing (cfg : Config) (tree : FsList) (r : Nat) :
    collectAttrsX "WixVariable" "Id" (run cfg tree r).doc =
      cfg.varDefs.map (fun v => (parseVar v).1) ∧
    collectAttrsX "WixVariable" "Value" (run cfg tree r).doc =
      cfg.varDefs.map (fun v => (parseVar v).2) ∧
    (∀ v : String, '=' ∉ v.data → parseVar v = (v, "")) ∧
    (∀ a b : String, '=' ∉ a.data → parseVar (a ++ "=" ++ b) = (a, b)) := by
  refine ⟨run_varIds cfg tree r, run_varValues cfg tree r, ?_, ?_⟩
  · intro v h
    have hall : ∀ c ∈ v.data, (fun ch => decide (ch ≠ '=')) c = true :=
      fun c hc => decide_eq_true (fun he => h (he ▸ hc))
    unfold parseVar
    rw [takeWhile_all _ _ hall]
    simp
  · intro a b h
    have hall : ∀ c ∈ a.data, (fun ch => decide (ch ≠ '=')) c = true :=
      fun c hc => decide_eq_true (fun he => h (he ▸ hc))
    have hdata : (a ++ "=" ++ b).data = a.data ++ '=' :: b.data := by
      simp [String.data_append]
    unfold parseVar
    rw [hdata, takeWhile_append_stop _ _ _ (by decide) _ hall]
    have hlen : ¬ a.data.length = (a.data ++ '=' :: b.data).length := by
      simp
    rw [if_neg hlen]
    have hdrop : (a.data ++ '=' :: b.data).drop (a.data.length + 1) = b.data := by
      rw [show a.data ++ '=' :: b.data = (a.data ++ ['=']) ++ b.data by simp]
      exact List.drop_left' (by simp)
    rw [hdrop]

/-- Witness for C9 at concrete malformed and well-formed variable strings. -/
theorem claim_C9_variable_parsing_witness :
    ('=' ∉ "NOVALUE".data) ∧ parseVar "NOVALUE" = ("NOVALUE", "") ∧
    ('=' ∉ "NAME".data) ∧ parseVar ("NAME" ++ "=" ++ "a=b c") = ("NAME", "a=b c") :=
  ⟨by decide,
   (claim_C9_variable_parsing { name := "x" } FsList.nil 0).2.2.1 "NOVALUE" (by decide),
   by decide,
   (claim_C9_variable_parsing { name := "x" } FsList.nil 0).2.2.2 "NAME" "a=b c" (by decide)⟩

/-- C6: every `Directory`, `Component` and `File` identifier emitted into
the document is a syntactically valid token: it starts with a letter and
contains only letters, digits and underscores — in particular no hyphens,
the hexadecimal token being sanitised by an alphabetic role tag and the
hyphen-free hex form. -/
theorem claim_C6_identifiers_valid_tokens (cfg : Config) (tree : FsList) (r : Nat)
    (s : String)
    (hs : s ∈ collectAttrsX "Directory" "Id" (run cfg tree r).doc ++
          collectAttrsX "Component" "Id" (run cfg tree r).doc ++
          collectAttrsX "File" "Id" (run cfg tree r).doc) :
    validIdToken s = true := by
  rw [run_dirIds, run_compIds, run_fileIds] at hs
  rcases List.mem_append.mp hs with hs1 | hfile
  rcases List.mem_append.mp hs1 with hdir | hcomp
  · rcases List.mem_cons.mp hdir with rfl | hdir
    · decide
    rcases List.mem_cons.mp hdir with hpf | hdir
    · unfold progfilesId at hpf
      cases hx : cfg.x64 <;> rw [hx] at hpf <;> simp at hpf <;> rw [hpf] <;> decide
    rcases List.mem_cons.mp hdir with rfl | hdir
    · decide
    rcases List.mem_append.mp hdir with hmap | hrep
    · rcases List.mem_map.mp hmap with ⟨p, _, rfl⟩
      exact validIdToken_dirId _
    · rcases List.eq_of_mem_replicate hrep with rfl
      decide
  · rcases List.mem_map.mp hcomp with ⟨p, _, rfl⟩
    exact validIdToken_compId _
  · rcases List.mem_map.mp hfile with ⟨p, _, rfl⟩
    exact validIdToken_fileId _

/-- Witness for C6 at a concrete run: the `TARGETDIR` identifier of an
empty-tree document. -/
theorem claim_C6_identifiers_valid_tokens_witness :
    ("TARGETDIR" ∈ collectAttrsX "Directory" "Id"
        (run { name := "app", upgradeCode := some ⟨7⟩, version := some "1.0" }
          FsList.nil 0).doc ++
      collectAttrsX "Component" "Id"
        (run { name := "app", upgradeCode := some ⟨7⟩, version := some "1.0" }
          FsList.nil 0).doc ++
      collectAttrsX "File" "Id"
        (run { name := "app", upgradeCode := some ⟨7⟩, version := some "1.0" }
          FsList.nil 0).doc) ∧
    validIdToken "TARGETDIR" = true :=
  ⟨by decide,
   claim_C6_identifiers_valid_tokens
     { name := "app", upgradeCode := some ⟨7⟩, version := some "1.0" }
     FsList.nil 0 "TARGETDIR" (by decide)⟩

/-- Concrete configuration for the C4 witness: icon configured, no
shortcut. -/
def cfgC4 : Config :=
  { name := "app", upgradeCode := some ⟨0⟩, version := some "1.0",
    icon := some "x.ico" }

/-- Concrete tree for the C4 witness. -/
def treeC4 : FsList := FsList.cons (FsEntry.file "a") FsList.nil

/-- C4: whenever an icon path is supplied, the emitted icon identifier ends
with the shortcut target's file extension in upper case when a shortcut was
attached, and is the fixed default token `app.ico` when no shortcut was
attached. -/
theorem claim_C4_icon_identifier (cfg : Config) (tree : FsList) (r : Nat)
    (ip : String) (hicon : cfg.icon = some ip) :
    (∀ sid, (theWalk cfg tree r).shortcutId = some sid →
      ∃ pre, collectAttrsX "Icon" "Id" (run cfg tree r).doc =
        [pre ++ pyUpper (splitext (cfg.shortcut.getD "")).2]) ∧
    ((theWalk cfg tree r).shortcutId = none →
      collectAttrsX "Icon" "Id" (run cfg tree r).doc = ["app.ico"]) := by
  constructor
  · intro sid hsid
    refine ⟨"Icon_" ++ pySplitHead sid '_', ?_⟩
    rw [run_iconIds cfg tree r ip hicon, hsid]
  · intro hsid
    rw [run_iconIds cfg tree r ip hicon, hsid]

/-- Witness for C4 at a concrete run with an icon and no shortcut. -/
theorem claim_C4_icon_identifier_witness :
    cfgC4.icon = some "x.ico" ∧
    (theWalk cfgC4 treeC4 0).shortcutId = none ∧
    collectAttrsX "Icon" "Id" (run cfgC4 treeC4 0).doc = ["app.ico"] :=
  ⟨rfl, by decide,
   (claim_C4_icon_identifier cfgC4 treeC4 0 "x.ico" rfl).2 (by decide)⟩

/-- Concrete configuration for C3: shortcut target naming no file. -/
def cfgC3 : Config :=
  { name := "app", upgradeCode := some ⟨0⟩, version := some "1.0",
    shortcut := some "missing.exe" }

/-- Concrete tree for C3: a single file that does not match the target. -/
def treeC3 : FsList := FsList.cons (FsEntry.file "app.exe") FsList.nil

/-- Counterexample to C3 as stated: with a configured shortcut target that
matches no file, the run records a diagnostic and still produces a document
with no `Shortcut` element, but the recorded diagnostic is an error-level
record, not a warning — no warning is recorded. -/
theorem claim_C3_shortcut_counterexample :
    ((run cfgC3 treeC3 0).diags.filter (fun d => d.1 = LogLevel.warning)).length = 0 ∧
    (run cfgC3 treeC3 0).diags =
      [(LogLevel.error, "couldn’t create shortcut missing.exe: file not found")] ∧
    countTagsX "Shortcut" (run cfgC3 treeC3 0).doc = 0 ∧
    countTagsX "Wix" (run cfgC3 treeC3 0).doc = 1 := by
  refine ⟨by decide, by decide, by decide, by decide⟩

/-- C3 as amended: if some file's logical path equals the target's
root-relative logical path (both upper-cased), that file's descriptor
carries exactly one `Shortcut` element; if no file matches, the document
contains no `Shortcut` element, a non-fatal error-level diagnostic (not a
warning) is recorded, and the run still produces a document. -/
theorem claim_C3_shortcut_amended (cfg : Config) (tree : FsList) (r : Nat)
    (t : String) (hsc : cfg.shortcut = some t) :
    (∀ p ∈ logicalPaths cfg tree, installdirpath cfg ++ "/" ++ pyUpper t = p →
      ("File_" ++ (uuid5 (effUpgradeCode cfg r) p).hex, 1) ∈
        fileShortcutsL (theWalk cfg tree r).children) ∧
    (installdirpath cfg ++ "/" ++ pyUpper t ∉ logicalPaths cfg tree →
      countTagsX "Shortcut" (run cfg tree r).doc = 0 ∧
      (LogLevel.error, "couldn’t create shortcut " ++ t ++ ": file not found") ∈
        (run cfg tree r).diags ∧
      countTagsX "Wix" (run cfg tree r).doc = 1) := by
  constructor
  · intro p hp hpe
    rw [theWalk_fileShortcuts]
    have hm : shortcutMatch cfg.shortcut (installdirpath cfg) p = true := by
      rw [hsc]
      simp [shortcutMatch, hpe]
    have h2 := List.mem_map_of_mem (fun p =>
      ("File_" ++ (uuid5 (effUpgradeCode cfg r) p).hex,
       if shortcutMatch cfg.shortcut (installdirpath cfg) p then 1 else 0)) hp
    simpa [hm] using h2
  · intro hnot
    refine ⟨?_, ?_, run_rootTag cfg tree r⟩
    · rw [run_countShortcut]
      have hfil : (logicalPaths cfg tree).filter
          (shortcutMatch cfg.shortcut (installdirpath cfg)) = [] := by
        rw [List.filter_eq_nil_iff]
        intro p hp
        rw [hsc]
        simp only [shortcutMatch, beq_iff_eq]
        intro he
        exact hnot (he ▸ hp)
      rw [hfil]
      rfl
    · rw [run_diags]
      have hsid : (theWalk cfg tree r).shortcutId = none := by
        rw [theWalk_shortcutId, hsc]
        simp [walkShortcutSpec, hnot]
      rw [hsc, hsid]
      simp

/-- Witness for C3 as amended, at the concrete missing-target run. -/
theorem claim_C3_shortcut_amended_witness :
    cfgC3.shortcut = some "missing.exe" ∧
    installdirpath cfgC3 ++ "/" ++ pyUpper "missing.exe" ∉ logicalPaths cfgC3 treeC3 ∧
    (LogLevel.error, "couldn’t create shortcut " ++ "missing.exe" ++ ": file not found") ∈
      (run cfgC3 treeC3 0).diags :=
  ⟨rfl, by decide,
   ((claim_C3_shortcut_amended cfgC3 treeC3 0 "missing.exe" rfl).2 (by decide)).2.1⟩

/-- Concrete configuration for C5: shortcut target `a.exe`. -/
def cfgC5 : Config :=
  { name := "app", upgradeCode := some ⟨0⟩, version := some "1.0",
    shortcut := some "a.exe" }

/-- Concrete tree for C5: two sibling files whose names differ only in
case, so both upper-cased logical paths equal the target's. -/
def treeC5 : FsList :=
  FsList.cons (FsEntry.file "a.exe") (FsList.cons (FsEntry.file "A.exe") FsList.nil)

/-- Counterexample to C5 as stated: with two case-variant sibling files
both matching the target, the walk attaches a `Shortcut` to both file
descriptors — two `File` elements carry one `Shortcut` each and the
document contains two `Shortcut` elements, not at most one. -/
theorem claim_C5_single_shortcut_counterexample :
    (fileShortcutsL (theWalk cfgC5 treeC5 0).children).map Prod.snd = [1, 1] ∧
    countTagsX "Shortcut" (run cfgC5 treeC5 0).doc = 2 := by
  refine ⟨by decide, by decide⟩

/-- C5 as amended: a `Shortcut` is attached exactly to the files whose
upper-cased logical path equals the configured target's; when the files'
logical paths are pairwise distinct (no case-folded duplicates) at most one
file descriptor carries a `Shortcut`; and the walk records a single
shortcut result — the last match — for the whole traversal. -/
theorem claim_C5_single_shortcut_amended (cfg : Config) (tree : FsList) (r : Nat) :
    (fileShortcutsL (theWalk cfg tree r).children).map Prod.snd =
      (logicalPaths cfg tree).map (fun p =>
        if shortcutMatch cfg.shortcut (installdirpath cfg) p then 1 else 0) ∧
    ((logicalPaths cfg tree).Nodup →
      ((fileShortcutsL (theWalk cfg tree r).children).filter
        (fun q => q.2 ≠ 0)).length ≤ 1) ∧
    (theWalk cfg tree r).shortcutId =
      walkShortcutSpec (effUpgradeCode cfg r) cfg.shortcut (installdirpath cfg)
        (logicalPaths cfg tree) := by
  refine ⟨?_, ?_, theWalk_shortcutId cfg tree r⟩
  · rw [theWalk_fileShortcuts, List.map_map]
    rfl
  · intro hnd
    rw [theWalk_fileShortcuts, List.filter_map, List.length_map]
    apply length_le_one_of_nodup_all_eq
      (match cfg.shortcut with
       | some t => installdirpath cfg ++ "/" ++ pyUpper t
       | none => "")
    · exact hnd.filter _
    · intro x hx
      have hpred := (List.mem_filter.mp hx).2
      simp only [Function.comp, decide_eq_true_eq] at hpred
      cases hsc : cfg.shortcut with
      | none =>
        try rw [hsc] at hpred
        simp [shortcutMatch] at hpred
      | some t =>
        try rw [hsc] at hpred
        by_cases hm : shortcutMatch (some t) (installdirpath cfg) x = true
        · simp only [shortcutMatch, beq_iff_eq] at hm
          exact hm.symm
        · rw [if_neg hm] at hpred
          exact absurd rfl hpred

/-- Concrete tree for the C5 witness: two files with distinct upper-cased
logical paths. -/
def treeC5w : FsList :=
  FsList.cons (FsEntry.file "a.exe") (FsList.cons (FsEntry.file "b.exe") FsList.nil)

/-- Witness for C5 as amended at a concrete tree with distinct paths. -/
theorem claim_C5_single_shortcut_amended_witness :
    (logicalPaths cfgC5 treeC5w).Nodup ∧
    ((fileShortcutsL (theWalk cfgC5 treeC5w 0).children).filter
      (fun q => q.2 ≠ 0)).length ≤ 1 :=
  ⟨by decide,
   (claim_C5_single_shortcut_amended cfgC5 treeC5w 0).2.1 (by decide)⟩

/-- Concrete configuration for C7: neither version nor upgrade code. -/
def cfgC7 : Config := { name := "app" }

/-- Counterexample to C7 as stated: omitting both the version and the
upgrade code emits four warning records on the diagnostic stream (two per
generated default: the explanatory line and the line showing the generated
value), not exactly two. -/
theorem claim_C7_default_warnings_counterexample :
    ((run cfgC7 FsList.nil 0).diags.filter
      (fun d => d.1 = LogLevel.warning)).length = 4 := by
  decide

/-- C7 as amended: omitting both the version and the upgrade code still
produces a document whose version attribute is the syntactically valid
default `0.0.1` and whose upgrade-code attribute is a syntactically valid
UUID string, and exactly four warning records are emitted on the
diagnostic stream — two per generated default. -/
theorem claim_C7_default_generation_amended (cfg : Config) (tree : FsList) (r : Nat)
    (hv : cfg.version = none) (hu : cfg.upgradeCode = none) :
    ((run cfg tree r).diags.filter (fun d => d.1 = LogLevel.warning)).length = 4 ∧
    collectAttrsX "Product" "Version" (run cfg tree r).doc = ["0.0.1"] ∧
    validVersionString "0.0.1" = true ∧
    collectAttrsX "Product" "UpgradeCode" (run cfg tree r).doc = [uuidStr (uuid4 r)] ∧
    validUUIDString (uuidStr (uuid4 r)) := by
  refine ⟨?_, ?_, by decide, ?_, validUUIDString_uuidStr _⟩
  · rw [run_diags, hu, hv]
    cases hsc : cfg.shortcut with
    | none => simp [List.filter]
    | some t =>
      cases hsid : (theWalk cfg tree r).shortcutId with
      | none => simp [List.filter]
      | some sid => simp [List.filter]
  · rw [run_productVersion]
    simp [effVersion, hv]
  · rw [run_productUpgradeCode]
    simp [effUpgradeCode, hu]

/-- Witness for C7 as amended at the concrete default configuration. -/
theorem claim_C7_default_generation_amended_witness :
    cfgC7.version = none ∧ cfgC7.upgradeCode = none ∧
    collectAttrsX "Product" "Version" (run cfgC7 FsList.nil 0).doc = ["0.0.1"] ∧
    validUUIDString (uuidStr (uuid4 0)) :=
  ⟨rfl, rfl,
   (claim_C7_default_generation_amended cfgC7 FsList.nil 0 rfl rfl).2.1,
   (claim_C7_default_generation_amended cfgC7 FsList.nil 0 rfl rfl).2.2.2.2⟩
